import Mathlib

/-
Shallow embedding of the youtube-backend repository: the document store,
the cascading entity-deletion protocol attached to the mongoose models
(src/models/user.model.js, src/models/video.model.js,
src/models/comment.model.js, src/models/tweet.model.js) and the request
handlers the claims are about (comment, user, video, like, subscription
and playlist controllers).

Modelling conventions:
- A MongoDB collection is a `List` of documents; `_id` is a `Nat` field
  named `id`.
- `findOne`/`find?` finds the first matching document, `findOneAndDelete`
  removes the first matching document (`List.eraseP`) and then runs the
  model's post-delete hook on the removed document, exactly as mongoose
  runs document middleware for `findOneAndDelete`/`findByIdAndDelete`.
- `deleteMany` is a plain `List.filter`; in mongoose it does NOT trigger
  the `findOneAndDelete` document middleware, so no hook runs for the
  documents it removes.
- `findOneAndUpdate`/`updateOne`/`save` update the first matching
  document in place (`updateFirst`); `$pull` removes every occurrence
  from an array field, `$addToSet` appends when absent, `$inc` adds.
- HTTP outcomes are status codes (`Nat`); `throw new ApiError(n, ...)`
  is modelled as returning `n` with the store as it is at throw time.
- Cloudinary (the Object Store) has no effect on the document store; for
  the account-deletion claims its calls are modelled by an oracle
  `String → CloudRes` plus an event trace recording operation order.
-/

namespace YoutubeBackend

/-- A User document (src/models/user.model.js, userSchema). -/
structure UserDoc where
  id : Nat
  username : String
  email : String
  fullName : String
  avatar : String
  coverImage : String
  watchHistory : List Nat
  password : String
  refreshToken : String
  deriving DecidableEq, Repr

/-- A Video document (src/models/video.model.js, videoSchema); the nested
`videoFile`/`thumbnail` subdocuments are flattened into fileName/url
pairs. `views` defaults to 0 on creation. -/
structure VideoDoc where
  id : Nat
  owner : Nat
  title : String
  description : String
  duration : Nat
  views : Nat
  isPublished : Bool
  categories : String
  tags : List String
  videoFileName : String
  videoFileUrl : String
  thumbnailFileName : String
  thumbnailUrl : String
  deriving DecidableEq, Repr

/-- A Comment document (src/models/comment.model.js, commentSchema).
`parentComment` is the optional self-reference of a reply, `replies` the
list of child comment ids kept on a parent. -/
structure CommentDoc where
  id : Nat
  content : String
  video : Nat
  owner : Nat
  parentComment : Option Nat
  replies : List Nat
  deriving DecidableEq, Repr

/-- A Tweet document (tweet model source, tweetSchema). -/
structure TweetDoc where
  id : Nat
  content : String
  owner : Nat
  deriving DecidableEq, Repr

/-- Modelled from the spec: like.model.js is imported by the models and
controllers but is not among the provided source files. Per spec §3 a
Like has exactly one of `video`, `comment`, `tweet` set plus `likedBy`,
and no delete hook of its own is described for it. -/
structure LikeDoc where
  id : Nat
  video : Option Nat
  comment : Option Nat
  tweet : Option Nat
  likedBy : Nat
  deriving DecidableEq, Repr

/-- Modelled from the spec: subscription.model.js is imported but not
among the provided source files. Per spec §3 a Subscription is a
(subscriber, channel) pair of User references. -/
structure SubscriptionDoc where
  id : Nat
  subscriber : Nat
  channel : Nat
  deriving DecidableEq, Repr

/-- A Playlist document (playlist model, per spec §3: name, description,
owner, ordered video ids). -/
structure PlaylistDoc where
  id : Nat
  name : String
  description : String
  owner : Nat
  videos : List Nat
  deriving DecidableEq, Repr

/-- The whole document store: one list per collection. -/
structure Store where
  users : List UserDoc
  videos : List VideoDoc
  comments : List CommentDoc
  tweets : List TweetDoc
  likes : List LikeDoc
  subs : List SubscriptionDoc
  playlists : List PlaylistDoc
  deriving DecidableEq, Repr

/-- Update the first element satisfying `p` by `f`, leave the rest alone:
the semantics of `findOneAndUpdate`, `updateOne` and of saving a fetched
document. -/
def updateFirst (p : α → Bool) (f : α → α) : List α → List α
  | [] => []
  | a :: as => if p a then f a :: as else a :: updateFirst p f as

/-- Well-formedness of the store: document ids are unique per collection
(MongoDB's `_id` uniqueness). -/
def Store.WF (s : Store) : Prop :=
  (s.users.map UserDoc.id).Nodup ∧
  (s.videos.map VideoDoc.id).Nodup ∧
  (s.comments.map CommentDoc.id).Nodup ∧
  (s.tweets.map TweetDoc.id).Nodup ∧
  (s.likes.map LikeDoc.id).Nodup ∧
  (s.subs.map SubscriptionDoc.id).Nodup ∧
  (s.playlists.map PlaylistDoc.id).Nodup

instance (s : Store) : Decidable s.WF := by
  unfold Store.WF; infer_instance

/-! ### Comment deletion (src/models/comment.model.js lines 37-60) -/

/-- Post `findOneAndDelete` hook of commentSchema, run on the removed
comment `c`: (1) `Like.deleteMany comment = c._id`; (2) if `c` has a
parent, `updateOne` pulls `c._id` out of the parent's `replies`;
(3) if `c.replies` is non-empty, `Comment.deleteMany _id ∈ c.replies` —
a bare `deleteMany`, so no per-reply hook runs for the replies. -/
def commentDeleteHook (c : CommentDoc) (s : Store) : Store :=
  let s1 : Store := { s with likes := s.likes.filter (fun l => !(l.comment == some c.id)) }
  let s2 : Store :=
    match c.parentComment with
    | some pid =>
        let pulled := updateFirst (fun d => d.id == pid)
          (fun d => { d with replies := d.replies.filter (fun r => !(r == c.id)) }) s1.comments
        { s1 with comments := pulled }
    | none => s1
  if c.replies.length > 0 then
    { s2 with comments := s2.comments.filter (fun d => !(c.replies.contains d.id)) }
  else s2

/-- `Comment.findOneAndDelete(filter)`: remove the first comment matching
the filter and run the comment post-delete hook on it. -/
def commentFindOneAndDelete (p : CommentDoc → Bool) (s : Store) : Option CommentDoc × Store :=
  match s.comments.find? p with
  | none => (none, s)
  | some c => (some c, commentDeleteHook c { s with comments := s.comments.eraseP p })

/-- The `for (const comment of list) await Comment.findByIdAndDelete(...)`
loops of the video and user hooks: delete each listed comment by id, with
its cascade. -/
def commentDeleteLoop (cs : List CommentDoc) (s : Store) : Store :=
  cs.foldl (fun st c => (commentFindOneAndDelete (fun d => d.id == c.id) st).2) s

/-! ### Video deletion (src/models/video.model.js lines 170-202) -/

/-- Post `findOneAndDelete` hook of videoSchema, run on the removed video
`v`: (1) find the comments with `video = v._id` and `findByIdAndDelete`
each (full comment cascade); (2) `Like.deleteMany video = v._id`;
(3) `User.findOneAndUpdate _id = v.owner` pulling `v._id` out of that
one user's `watchHistory`; the Cloudinary deletions that follow do not
touch the document store. -/
def videoDeleteHook (v : VideoDoc) (s : Store) : Store :=
  let s1 := commentDeleteLoop (s.comments.filter (fun c => c.video == v.id)) s
  let s2 : Store := { s1 with likes := s1.likes.filter (fun l => !(l.video == some v.id)) }
  let pulled := updateFirst (fun u => u.id == v.owner)
    (fun u => { u with watchHistory := u.watchHistory.filter (fun w => !(w == v.id)) }) s2.users
  { s2 with users := pulled }

/-- `Video.findOneAndDelete(filter)`: remove the first matching video and
run the video post-delete hook on it. -/
def videoFindOneAndDelete (p : VideoDoc → Bool) (s : Store) : Option VideoDoc × Store :=
  match s.videos.find? p with
  | none => (none, s)
  | some v => (some v, videoDeleteHook v { s with videos := s.videos.eraseP p })

/-- The per-video deletion loop of the user hook. -/
def videoDeleteLoop (vs : List VideoDoc) (s : Store) : Store :=
  vs.foldl (fun st v => (videoFindOneAndDelete (fun d => d.id == v.id) st).2) s

/-! ### Tweet deletion (tweet model source, lines 18-24) -/

/-- Post `findOneAndDelete` hook of tweetSchema: delete all Likes with
`tweet = t._id`. -/
def tweetDeleteHook (t : TweetDoc) (s : Store) : Store :=
  { s with likes := s.likes.filter (fun l => !(l.tweet == some t.id)) }

/-- `Tweet.findOneAndDelete(filter)`. -/
def tweetFindOneAndDelete (p : TweetDoc → Bool) (s : Store) : Option TweetDoc × Store :=
  match s.tweets.find? p with
  | none => (none, s)
  | some t => (some t, tweetDeleteHook t { s with tweets := s.tweets.eraseP p })

/-- The per-tweet deletion loop of the user hook. -/
def tweetDeleteLoop (ts : List TweetDoc) (s : Store) : Store :=
  ts.foldl (fun st t => (tweetFindOneAndDelete (fun d => d.id == t.id) st).2) s

/-! ### User deletion (src/models/user.model.js lines 65-103) -/

/-- Step 1 of the user hook: find all videos owned by the user, delete
each via `Video.findOneAndDelete` (full video cascade). -/
def userCascadeVideos (uid : Nat) (s : Store) : Store :=
  videoDeleteLoop (s.videos.filter (fun v => v.owner == uid)) s

/-- Step 2: `Like.deleteMany likedBy = uid`. -/
def userCascadeLikes (uid : Nat) (s : Store) : Store :=
  { s with likes := s.likes.filter (fun l => !(l.likedBy == uid)) }

/-- Step 3: find all comments owned by the user, delete each via
`Comment.findOneAndDelete` (full comment cascade). -/
def userCascadeComments (uid : Nat) (s : Store) : Store :=
  commentDeleteLoop (s.comments.filter (fun c => c.owner == uid)) s

/-- Step 4: find all tweets owned by the user, delete each via
`Tweet.findOneAndDelete` (its like cascade). -/
def userCascadeTweets (uid : Nat) (s : Store) : Store :=
  tweetDeleteLoop (s.tweets.filter (fun t => t.owner == uid)) s

/-- Step 5: `Subscription.deleteMany subscriber = uid or channel = uid`. -/
def userCascadeSubs (uid : Nat) (s : Store) : Store :=
  { s with subs := s.subs.filter (fun x => !(x.subscriber == uid || x.channel == uid)) }

/-- Post `findOneAndDelete` hook of userSchema: the five cascade steps in
source order (videos, likes, comments, tweets, subscriptions). -/
def userDeleteHook (uid : Nat) (s : Store) : Store :=
  userCascadeSubs uid (userCascadeTweets uid (userCascadeComments uid
    (userCascadeLikes uid (userCascadeVideos uid s))))

/-- `User.findOneAndDelete(filter)`: remove the first matching user and
run the user post-delete hook keyed on the removed user's id. -/
def userFindOneAndDelete (p : UserDoc → Bool) (s : Store) : Option UserDoc × Store :=
  match s.users.find? p with
  | none => (none, s)
  | some u => (some u, userDeleteHook u.id { s with users := s.users.eraseP p })

/-- The user hook's five steps as a list, in source order; used to model
executions in which a database step throws (the hook's try/catch). -/
def userDeleteHookSteps (uid : Nat) : List (Store → Store) :=
  [userCascadeVideos uid, userCascadeLikes uid, userCascadeComments uid,
   userCascadeTweets uid, userCascadeSubs uid]

/-- The user hook when the (k+1)-st database step throws: the first `k`
steps have completed, the exception aborts the rest, and the hook's
`catch` block swallows it (`console.log(error)`), so the hook still
returns normally with a partially-cascaded store. -/
def userDeleteHookUpTo (uid : Nat) (k : Nat) (s : Store) : Store :=
  ((userDeleteHookSteps uid).take k).foldl (fun st f => f st) s

/-- `User.findOneAndDelete` in an execution whose hook is interrupted
after `k` completed cascade steps; the primary user record is already
removed before the hook runs. -/
def userFindOneAndDeleteInterrupted (p : UserDoc → Bool) (k : Nat) (s : Store) :
    Option UserDoc × Store :=
  match s.users.find? p with
  | none => (none, s)
  | some u => (some u, userDeleteHookUpTo u.id k { s with users := s.users.eraseP p })

/-! ### Cloudinary modelling (src/utils/cloudinary.js, account deletion) -/

/-- Result of a Cloudinary destroy call; only the presence of an `error`
property matters to the controllers. -/
structure CloudRes where
  error : Bool
  deriving DecidableEq, Repr

/-- `deleteOnCloudinaryWithUrl` derives the public id from the stored
asset url: last `/`-segment, stripped of its extension. -/
def publicIdFromUrl (url : String) : String :=
  (((url.splitOn "/").getLastD "").splitOn ".").headD ""

/-- Events observable at the service boundaries of the account-deletion
flow, in the order the controller performs them. -/
inductive CascadeEv where
  | dbUserDelete (uid : Nat)
  | objDelete (publicId : String)
  deriving DecidableEq, Repr

/-- Outcome of the delete-account endpoint. -/
structure DeleteAccountResult where
  status : Nat
  message : String
  store : Store
  events : List CascadeEv
  deriving Repr

/-- `deleteUserAccount` (user controller, lines 690-701):
`User.findOneAndDelete _id = uid` (record removed, cascade hook runs),
then the avatar and the cover image are destroyed on Cloudinary; if
either destroy result carries an error, throw 500, else report 200
"Account deleted". `cloud` is the Object Store oracle. -/
def deleteUserAccount (s : Store) (uid : Nat) (cloud : String → CloudRes) :
    DeleteAccountResult :=
  match userFindOneAndDelete (fun u => u.id == uid) s with
  | (none, s1) => ⟨500, "Error ouccerd while deleting user account", s1, []⟩
  | (some u, s1) =>
      let avatarRes := cloud (publicIdFromUrl u.avatar)
      let coverRes := cloud (publicIdFromUrl u.coverImage)
      let evs := [CascadeEv.dbUserDelete uid,
                  CascadeEv.objDelete (publicIdFromUrl u.avatar),
                  CascadeEv.objDelete (publicIdFromUrl u.coverImage)]
      if avatarRes.error || coverRes.error then
        ⟨500, "Error while deleting on cloudinary", s1, evs⟩
      else
        ⟨200, "Account deleted", s1, evs⟩

/-- `deleteUserAccount` in an execution where the (k+1)-st database step
of the user hook throws: the hook catches and only logs the error, so
the controller proceeds exactly as in the successful case. -/
def deleteUserAccountDbFailure (s : Store) (uid k : Nat) (cloud : String → CloudRes) :
    DeleteAccountResult :=
  match userFindOneAndDeleteInterrupted (fun u => u.id == uid) k s with
  | (none, s1) => ⟨500, "Error ouccerd while deleting user account", s1, []⟩
  | (some u, s1) =>
      let avatarRes := cloud (publicIdFromUrl u.avatar)
      let coverRes := cloud (publicIdFromUrl u.coverImage)
      let evs := [CascadeEv.dbUserDelete uid,
                  CascadeEv.objDelete (publicIdFromUrl u.avatar),
                  CascadeEv.objDelete (publicIdFromUrl u.coverImage)]
      if avatarRes.error || coverRes.error then
        ⟨500, "Error while deleting on cloudinary", s1, evs⟩
      else
        ⟨200, "Account deleted", s1, evs⟩

/-! ### Comment controller (src/controllers/comment.controller.js and
the extended comment controller with replies) -/

/-- `deleteComment`: `Comment.findOneAndDelete _id = commentId and
owner = actor`; throws 400 "Comment not found or you are not the owner
of the comment" when nothing matched. -/
def deleteComment (s : Store) (actorId commentId : Nat) : Nat × Store :=
  match commentFindOneAndDelete (fun c => c.id == commentId && c.owner == actorId) s with
  | (none, s1) => (400, s1)
  | (some _, s1) => (200, s1)

/-- `deleteReply`: `Comment.findOneAndDelete _id = replyId and
owner = actor` (with the comment cascade), then re-fetch the parent and
save it with the reply pulled out of `replies` (a second, redundant
pull). Throws 400 when nothing matched. -/
def deleteReply (s : Store) (actorId replyId : Nat) : Nat × Store :=
  match commentFindOneAndDelete (fun c => c.id == replyId && c.owner == actorId) s with
  | (none, s1) => (400, s1)
  | (some r, s1) =>
      match r.parentComment with
      | none => (200, s1)
      | some pid =>
          match s1.comments.find? (fun c => c.id == pid) with
          | none => (200, s1)
          | some parent =>
              let saved := updateFirst (fun c => c.id == pid)
                (fun _ => { parent with replies := parent.replies.filter (fun x => !(x == r.id)) })
                s1.comments
              (200, { s1 with comments := saved })

/-- `addComment`: requires the video to exist, then creates a top-level
comment (no `parentComment`, empty `replies`) owned by the actor. -/
def addComment (s : Store) (actorId videoId newId : Nat) (content : String) : Nat × Store :=
  match s.videos.find? (fun v => v.id == videoId) with
  | none => (400, s)
  | some v => (201, { s with comments := s.comments ++ [⟨newId, content, v.id, actorId, none, []⟩] })

/-- `addReplyToComment`: fetch the parent by id (404 when absent — with
no check that the parent is itself top-level), save a new comment with
`video` copied from the parent and `parentComment = parentCommentId`,
then push the new id onto the fetched parent's `replies` and save it. -/
def addReplyToComment (s : Store) (actorId parentCommentId newId : Nat) (content : String) :
    Nat × Store :=
  match s.comments.find? (fun c => c.id == parentCommentId) with
  | none => (404, s)
  | some parent =>
      let reply : CommentDoc := ⟨newId, content, parent.video, actorId, some parentCommentId, []⟩
      let inserted := s.comments ++ [reply]
      let saved := updateFirst (fun c => c.id == parentCommentId)
        (fun _ => { parent with replies := parent.replies ++ [newId] }) inserted
      (201, { s with comments := saved })

/-! ### Video controller (video controller source) -/

/-- `deleteVideo`: `Video.findOneAndDelete _id = videoId and
owner = actor` (video cascade runs when matched); throws 400 "Video not
found or you are not the owner of this video" otherwise. -/
def deleteVideo (s : Store) (actorId videoId : Nat) : Nat × Store :=
  match videoFindOneAndDelete (fun v => v.id == videoId && v.owner == actorId) s with
  | (none, s1) => (400, s1)
  | (some _, s1) => (200, s1)

/-- `publishAVideo`: `Video.create` with the uploaded asset references;
`views` is not supplied, so it takes the schema default 0. -/
def publishAVideo (s : Store) (actorId newId : Nat) (title description : String)
    (duration : Nat) (isPublished : Bool) (categories : String) (tags : List String)
    (videoFileName videoFileUrl thumbnailFileName thumbnailUrl : String) : Nat × Store :=
  (200, { s with videos := s.videos ++
    [⟨newId, actorId, title, description, duration, 0, isPublished, categories, tags,
      videoFileName, videoFileUrl, thumbnailFileName, thumbnailUrl⟩] })

/-- `getVideoById`: (a) inside a try/catch, a verified viewer gets the
video `$addToSet` into their `watchHistory` (first user matching the
token's id); (b) `Video.findByIdAndUpdate` applies `$inc views 1` to the
matched video and returns the pre-update document — null (→ throw 400)
only when no video matched. `viewer = none` models a request whose token
verification failed (the catch only logs). -/
def getVideoById (s : Store) (videoId : Nat) (viewer : Option Nat) : Nat × Store :=
  let s1 : Store :=
    match viewer with
    | some uid =>
        let added := updateFirst (fun u => u.id == uid)
          (fun u => { u with watchHistory :=
            if u.watchHistory.contains videoId then u.watchHistory
            else u.watchHistory ++ [videoId] }) s.users
        { s with users := added }
    | none => s
  let found := s1.videos.find? (fun v => v.id == videoId)
  let bumped := updateFirst (fun v => v.id == videoId)
    (fun v => { v with views := v.views + 1 }) s1.videos
  let s2 : Store := { s1 with videos := bumped }
  match found with
  | none => (400, s2)
  | some _ => (200, s2)

/-- `updateVideo`: both branches (with and without a new thumbnail)
`findOneAndUpdate` the video keyed by `(_id, owner)` and `$set` title,
description, tags and categories — never `views`; the thumbnail branch
also sets the new thumbnail reference. The Cloudinary upload/destroy
calls do not touch the document store and are omitted. Throws 400 when
no video matched. -/
def updateVideo (s : Store) (actorId videoId : Nat) (title description categories : String)
    (tags : List String) (thumb : Option (String × String)) : Nat × Store :=
  match s.videos.find? (fun v => v.id == videoId && v.owner == actorId) with
  | none => (400, s)
  | some _ =>
      let setFields := fun (v : VideoDoc) =>
        let v1 := { v with title := title, description := description,
                           categories := categories, tags := tags }
        match thumb with
        | some (fileName, url) =>
            { v1 with thumbnailFileName := fileName, thumbnailUrl := url }
        | none => v1
      let saved := updateFirst (fun v => v.id == videoId && v.owner == actorId)
        setFields s.videos
      (200, { s with videos := saved })

/-- `togglePublishStatus`: `findOne` the video by `(_id, owner)` (400
when absent), flip `isPublished` on the fetched document and save it. -/
def togglePublishStatus (s : Store) (actorId videoId : Nat) : Nat × Store :=
  match s.videos.find? (fun v => v.id == videoId && v.owner == actorId) with
  | none => (400, s)
  | some v =>
      let saved := updateFirst (fun d => d.id == videoId && d.owner == actorId)
        (fun _ => { v with isPublished := !v.isPublished }) s.videos
      (200, { s with videos := saved })

/-! ### Like controller (src/controllers/like.controller.js lines 11-93) -/

/-- Filter used by `toggleVideoLike`: `likedBy = actor and
video = videoId` (the other target fields are not constrained). -/
def likeVideoPred (actorId videoId : Nat) (l : LikeDoc) : Bool :=
  l.likedBy == actorId && l.video == some videoId

/-- Filter used by `toggleCommentLike`. -/
def likeCommentPred (actorId commentId : Nat) (l : LikeDoc) : Bool :=
  l.likedBy == actorId && l.comment == some commentId

/-- Filter used by `toggleTweetLike`. -/
def likeTweetPred (actorId tweetId : Nat) (l : LikeDoc) : Bool :=
  l.likedBy == actorId && l.tweet == some tweetId

/-- `toggleVideoLike`: `Like.findOneAndDelete likedBy = actor,
video = videoId`; when nothing was deleted, `Like.create` a new Like
with only the `video` target set. -/
def toggleVideoLike (s : Store) (actorId videoId newId : Nat) : Nat × Store :=
  match s.likes.find? (likeVideoPred actorId videoId) with
  | some _ => (200, { s with likes := s.likes.eraseP (likeVideoPred actorId videoId) })
  | none => (200, { s with likes := s.likes ++ [⟨newId, some videoId, none, none, actorId⟩] })

/-- `toggleCommentLike`: same shape, keyed on the `comment` target. -/
def toggleCommentLike (s : Store) (actorId commentId newId : Nat) : Nat × Store :=
  match s.likes.find? (likeCommentPred actorId commentId) with
  | some _ => (200, { s with likes := s.likes.eraseP (likeCommentPred actorId commentId) })
  | none => (200, { s with likes := s.likes ++ [⟨newId, none, some commentId, none, actorId⟩] })

/-- `toggleTweetLike`: same shape, keyed on the `tweet` target. -/
def toggleTweetLike (s : Store) (actorId tweetId newId : Nat) : Nat × Store :=
  match s.likes.find? (likeTweetPred actorId tweetId) with
  | some _ => (200, { s with likes := s.likes.eraseP (likeTweetPred actorId tweetId) })
  | none => (200, { s with likes := s.likes ++ [⟨newId, none, none, some tweetId, actorId⟩] })

/-- The three Like target kinds (spec §4.2 / glossary "target kind"). -/
inductive TargetKind where
  | video
  | comment
  | tweet
  deriving DecidableEq, Repr

/-- Dispatch to the three toggle handlers by target kind. -/
def toggleLike : TargetKind → Store → Nat → Nat → Nat → Nat × Store
  | .video, s, actorId, targetId, newId => toggleVideoLike s actorId targetId newId
  | .comment, s, actorId, targetId, newId => toggleCommentLike s actorId targetId newId
  | .tweet, s, actorId, targetId, newId => toggleTweetLike s actorId targetId newId

/-- The (actor, target) filter of the toggle for each kind. -/
def likePred : TargetKind → Nat → Nat → LikeDoc → Bool
  | .video => likeVideoPred
  | .comment => likeCommentPred
  | .tweet => likeTweetPred

/-- The Like document each toggle creates in its unliked branch. -/
def mkLike : TargetKind → Nat → Nat → Nat → LikeDoc
  | .video, newId, actorId, targetId => ⟨newId, some targetId, none, none, actorId⟩
  | .comment, newId, actorId, targetId => ⟨newId, none, some targetId, none, actorId⟩
  | .tweet, newId, actorId, targetId => ⟨newId, none, none, some targetId, actorId⟩

/-! ### Subscription controller (subscription controller source,
lines 12-37) -/

/-- JavaScript strict equality as the self-subscription guard performs
it: `req.user?._id === new mongoose.Types.ObjectId(channelId)` compares
an existing ObjectId instance with a freshly constructed one. `===` on
objects is reference equality and a fresh allocation is never the same
reference as an existing object, so the comparison is `false` no matter
whether the two ids have equal values. -/
def objectIdRefEqFresh (_actorId _channelId : Nat) : Bool := false

/-- `toggleSubscription`: reject (400 "you can not subscribe yourself")
when the broken identity guard fires, else `findOneAndDelete` the
(subscriber, channel) Subscription; when nothing was deleted, create
one. -/
def toggleSubscription (s : Store) (actorId channelId newId : Nat) : Nat × Store :=
  if objectIdRefEqFresh actorId channelId then (400, s)
  else
    match s.subs.find? (fun x => x.channel == channelId && x.subscriber == actorId) with
    | some _ =>
        (200, { s with subs := s.subs.eraseP (fun x => x.channel == channelId && x.subscriber == actorId) })
    | none => (200, { s with subs := s.subs ++ [⟨newId, actorId, channelId⟩] })

/-! ### Playlist controller (src/controllers/playlist.controller.js) -/

/-- `deletePlaylist`: `Playlist.findOneAndDelete _id = playlistId and
owner = actor`; when nothing matched it throws 500 "Unable to delete,
please try later" (a server-error status, not a 4xx client error). -/
def deletePlaylist (s : Store) (actorId playlistId : Nat) : Nat × Store :=
  match s.playlists.find? (fun pl => pl.id == playlistId && pl.owner == actorId) with
  | none => (500, s)
  | some _ =>
      (200, { s with playlists := s.playlists.eraseP (fun pl => pl.id == playlistId && pl.owner == actorId) })

/-! ### Generic lemmas about `updateFirst`, `eraseP` and `find?` -/

theorem updateFirst_cons_pos {p : α → Bool} {f : α → α} {a : α} {l : List α} (h : p a) :
    updateFirst p f (a :: l) = f a :: l := by
  simp [updateFirst, h]

theorem updateFirst_cons_neg {p : α → Bool} {f : α → α} {a : α} {l : List α} (h : ¬ p a) :
    updateFirst p f (a :: l) = a :: updateFirst p f l := by
  simp [updateFirst, h]

theorem mem_updateFirst {p : α → Bool} {f : α → α} {l : List α} {b : α}
    (hb : b ∈ updateFirst p f l) : b ∈ l ∨ ∃ a ∈ l, p a ∧ b = f a := by
  induction l with
  | nil => simp [updateFirst] at hb
  | cons a as ih =>
      by_cases h : p a
      · rw [updateFirst_cons_pos h] at hb
        rcases List.mem_cons.mp hb with hb | hb
        · exact Or.inr ⟨a, List.mem_cons_self a as, h, hb⟩
        · exact Or.inl (List.mem_cons_of_mem a hb)
      · rw [updateFirst_cons_neg h] at hb
        rcases List.mem_cons.mp hb with hb | hb
        · exact Or.inl (hb ▸ List.mem_cons_self a as)
        · rcases ih hb with hb | ⟨x, hx, hpx, hbx⟩
          · exact Or.inl (List.mem_cons_of_mem a hb)
          · exact Or.inr ⟨x, List.mem_cons_of_mem a hx, hpx, hbx⟩

theorem map_updateFirst (key : α → β) {p : α → Bool} {f : α → α}
    (hf : ∀ a, key (f a) = key a) (l : List α) :
    (updateFirst p f l).map key = l.map key := by
  induction l with
  | nil => rfl
  | cons a as ih =>
      by_cases h : p a
      · rw [updateFirst_cons_pos h]; simp [hf]
      · rw [updateFirst_cons_neg h]; simp [ih]

theorem updateFirst_append_left {p : α → Bool} {f : α → α} {l₁ l₂ : List α}
    (h : ∃ a ∈ l₁, p a) : updateFirst p f (l₁ ++ l₂) = updateFirst p f l₁ ++ l₂ := by
  induction l₁ with
  | nil => simp at h
  | cons a as ih =>
      by_cases ha : p a
      · simp [updateFirst_cons_pos ha]
      · rcases h with ⟨x, hx, hpx⟩
        rcases List.mem_cons.mp hx with rfl | hx
        · exact absurd hpx ha
        · simp [updateFirst_cons_neg ha, ih ⟨x, hx, hpx⟩]

theorem mem_updateFirst_key {k : α → Nat} {p : α → Bool} {f : α → α} {i : Nat}
    (hp : ∀ a, p a = (k a == i)) {l : List α}
    (hn : (l.map k).Nodup) {b : α} (hb : b ∈ updateFirst p f l) (hkey : k b = i) :
    ∃ a ∈ l, k a = i ∧ b = f a := by
  induction l with
  | nil => simp [updateFirst] at hb
  | cons a as ih =>
      simp only [List.map_cons, List.nodup_cons] at hn
      by_cases h : p a
      · rw [updateFirst_cons_pos h] at hb
        have hai : k a = i := by
          have := hp a; rw [h] at this; exact beq_iff_eq.mp this.symm
        rcases List.mem_cons.mp hb with hb | hb
        · exact ⟨a, List.mem_cons_self a as, hai, hb⟩
        · refine absurd ?_ hn.1
          rw [hai, ← hkey]
          exact List.mem_map_of_mem k hb
      · rw [updateFirst_cons_neg h] at hb
        have hai : k a ≠ i := by
          intro hc
          exact h (by rw [hp a]; exact beq_iff_eq.mpr hc)
        rcases List.mem_cons.mp hb with hb | hb
        · exact absurd (hb ▸ hkey) hai
        · rcases ih hn.2 hb with ⟨x, hx, hxi, hbx⟩
          exact ⟨x, List.mem_cons_of_mem a hx, hxi, hbx⟩

theorem f_mem_updateFirst_key {k : α → Nat} {p : α → Bool} {f : α → α} {i : Nat}
    (hp : ∀ a, p a = (k a == i)) {l : List α}
    (hn : (l.map k).Nodup) {v : α} (hv : v ∈ l) (hkey : k v = i) :
    f v ∈ updateFirst p f l := by
  induction l with
  | nil => simp at hv
  | cons a as ih =>
      simp only [List.map_cons, List.nodup_cons] at hn
      rcases List.mem_cons.mp hv with rfl | hv
      · have : p v := by rw [hp v]; exact beq_iff_eq.mpr hkey
        rw [updateFirst_cons_pos this]
        exact List.mem_cons_self _ _
      · have hai : ¬ p a := by
          intro hc
          have : k a = i := beq_iff_eq.mp (by rw [← hp a]; exact hc)
          exact hn.1 (this ▸ hkey ▸ (List.mem_map_of_mem k hv))
        rw [updateFirst_cons_neg hai]
        exact List.mem_cons_of_mem a (ih hn.2 hv)

theorem key_ne_of_mem_eraseP {k : α → Nat} {p : α → Bool} {l : List α}
    (hn : (l.map k).Nodup) {c : α} (hf : l.find? p = some c) {d : α}
    (hd : d ∈ l.eraseP p) : k d ≠ k c := by
  induction l with
  | nil => simp at hf
  | cons a as ih =>
      simp only [List.map_cons, List.nodup_cons] at hn
      by_cases h : p a
      · rw [List.find?_cons_of_pos _ h] at hf
        injection hf with hf
        subst hf
        rw [List.eraseP_cons_of_pos h] at hd
        intro hc
        exact hn.1 (hc ▸ (List.mem_map_of_mem k hd))
      · rw [List.find?_cons_of_neg _ h] at hf
        rw [List.eraseP_cons_of_neg h] at hd
        rcases List.mem_cons.mp hd with rfl | hd
        · intro hc
          have hcmem : c ∈ as := List.mem_of_find?_eq_some hf
          exact hn.1 (hc ▸ (List.mem_map_of_mem k hcmem))
        · exact ih hn.2 hf hd

theorem find?_append_of_none {p : α → Bool} {l₁ l₂ : List α} (h : l₁.find? p = none) :
    (l₁ ++ l₂).find? p = l₂.find? p := by
  induction l₁ with
  | nil => rfl
  | cons a as ih =>
      by_cases ha : p a
      · rw [List.find?_cons_of_pos _ ha] at h; exact absurd h (by simp)
      · rw [List.find?_cons_of_neg _ ha] at h
        rw [List.cons_append, List.find?_cons_of_neg _ ha]
        exact ih h

/-! ### Component effects of the comment cascade -/

theorem commentDeleteHook_users (c : CommentDoc) (s : Store) :
    (commentDeleteHook c s).users = s.users := by
  unfold commentDeleteHook
  cases c.parentComment <;> by_cases h : c.replies.length > 0 <;> simp [h]

theorem commentDeleteHook_videos (c : CommentDoc) (s : Store) :
    (commentDeleteHook c s).videos = s.videos := by
  unfold commentDeleteHook
  cases c.parentComment <;> by_cases h : c.replies.length > 0 <;> simp [h]

theorem commentDeleteHook_tweets (c : CommentDoc) (s : Store) :
    (commentDeleteHook c s).tweets = s.tweets := by
  unfold commentDeleteHook
  cases c.parentComment <;> by_cases h : c.replies.length > 0 <;> simp [h]

theorem commentDeleteHook_subs (c : CommentDoc) (s : Store) :
    (commentDeleteHook c s).subs = s.subs := by
  unfold commentDeleteHook
  cases c.parentComment <;> by_cases h : c.replies.length > 0 <;> simp [h]

theorem commentDeleteHook_playlists (c : CommentDoc) (s : Store) :
    (commentDeleteHook c s).playlists = s.playlists := by
  unfold commentDeleteHook
  cases c.parentComment <;> by_cases h : c.replies.length > 0 <;> simp [h]

theorem commentDeleteHook_likes (c : CommentDoc) (s : Store) :
    (commentDeleteHook c s).likes = s.likes.filter (fun l => !(l.comment == some c.id)) := by
  unfold commentDeleteHook
  cases c.parentComment <;> by_cases h : c.replies.length > 0 <;> simp [h]

theorem commentDeleteHook_comments_mem {c : CommentDoc} {s : Store} {d : CommentDoc}
    (hd : d ∈ (commentDeleteHook c s).comments) :
    ∃ c0 ∈ s.comments, d.id = c0.id ∧ d.owner = c0.owner ∧ d.video = c0.video := by
  unfold commentDeleteHook at hd
  cases hpc : c.parentComment with
  | none =>
      rw [hpc] at hd
      by_cases h : c.replies.length > 0 <;> simp [h] at hd
      · exact ⟨d, hd.1, rfl, rfl, rfl⟩
      · exact ⟨d, hd, rfl, rfl, rfl⟩
  | some pid =>
      rw [hpc] at hd
      by_cases h : c.replies.length > 0 <;> simp [h] at hd
      · rcases mem_updateFirst hd.1 with hm | ⟨a, ha, _, rfl⟩
        · exact ⟨d, hm, rfl, rfl, rfl⟩
        · exact ⟨a, ha, rfl, rfl, rfl⟩
      · rcases mem_updateFirst hd with hm | ⟨a, ha, _, rfl⟩
        · exact ⟨d, hm, rfl, rfl, rfl⟩
        · exact ⟨a, ha, rfl, rfl, rfl⟩

theorem commentDeleteHook_comments_map_id (c : CommentDoc) (s : Store) :
    List.Sublist ((commentDeleteHook c s).comments.map CommentDoc.id)
      (s.comments.map CommentDoc.id) := by
  unfold commentDeleteHook
  cases c.parentComment with
  | none =>
      by_cases h : c.replies.length > 0 <;> simp [h]
      exact (List.filter_sublist _).map _
  | some pid =>
      by_cases h : c.replies.length > 0 <;> simp [h]
      · have hupd : (updateFirst (fun d => d.id == pid)
            (fun d => { d with replies := d.replies.filter (fun r => !(r == c.id)) })
            s.comments).map CommentDoc.id = s.comments.map CommentDoc.id :=
          map_updateFirst CommentDoc.id
            (f := fun d => { d with replies := d.replies.filter (fun r => !(r == c.id)) })
            (p := fun d => d.id == pid) (fun a => rfl) s.comments
        calc List.Sublist _ ((updateFirst (fun d => d.id == pid)
              (fun d => { d with replies := d.replies.filter (fun r => !(r == c.id)) })
              s.comments).map CommentDoc.id) := (List.filter_sublist _).map _
          _ = s.comments.map CommentDoc.id := hupd
      · have hupd := map_updateFirst CommentDoc.id
          (f := fun d => { d with replies := d.replies.filter (fun r => !(r == c.id)) })
          (p := fun d => d.id == pid) (fun a => rfl) s.comments
        exact hupd ▸ List.Sublist.refl _

theorem commentFOAD_users (p : CommentDoc → Bool) (s : Store) :
    ((commentFindOneAndDelete p s).2).users = s.users := by
  unfold commentFindOneAndDelete
  split
  · rfl
  · rw [commentDeleteHook_users]

theorem commentFOAD_videos (p : CommentDoc → Bool) (s : Store) :
    ((commentFindOneAndDelete p s).2).videos = s.videos := by
  unfold commentFindOneAndDelete
  split
  · rfl
  · rw [commentDeleteHook_videos]

theorem commentFOAD_tweets (p : CommentDoc → Bool) (s : Store) :
    ((commentFindOneAndDelete p s).2).tweets = s.tweets := by
  unfold commentFindOneAndDelete
  split
  · rfl
  · rw [commentDeleteHook_tweets]

theorem commentFOAD_subs (p : CommentDoc → Bool) (s : Store) :
    ((commentFindOneAndDelete p s).2).subs = s.subs := by
  unfold commentFindOneAndDelete
  split
  · rfl
  · rw [commentDeleteHook_subs]

theorem commentFOAD_playlists (p : CommentDoc → Bool) (s : Store) :
    ((commentFindOneAndDelete p s).2).playlists = s.playlists := by
  unfold commentFindOneAndDelete
  split
  · rfl
  · rw [commentDeleteHook_playlists]

theorem commentFOAD_likes_mem {p : CommentDoc → Bool} {s : Store} {l : LikeDoc}
    (hl : l ∈ (commentFindOneAndDelete p s).2.likes) : l ∈ s.likes := by
  unfold commentFindOneAndDelete at hl
  split at hl
  · exact hl
  · rw [commentDeleteHook_likes] at hl
    exact List.mem_of_mem_filter hl

theorem commentFOAD_comments_mem {p : CommentDoc → Bool} {s : Store} {d : CommentDoc}
    (hd : d ∈ (commentFindOneAndDelete p s).2.comments) :
    ∃ c0 ∈ s.comments, d.id = c0.id ∧ d.owner = c0.owner ∧ d.video = c0.video := by
  unfold commentFindOneAndDelete at hd
  split at hd
  · exact ⟨d, hd, rfl, rfl, rfl⟩
  · rcases commentDeleteHook_comments_mem hd with ⟨c0, hc0, h⟩
    exact ⟨c0, List.mem_of_mem_eraseP hc0, h⟩

theorem commentFOAD_comments_map_id (p : CommentDoc → Bool) (s : Store) :
    List.Sublist ((commentFindOneAndDelete p s).2.comments.map CommentDoc.id)
      (s.comments.map CommentDoc.id) := by
  unfold commentFindOneAndDelete
  split
  · exact List.Sublist.refl _
  · exact (commentDeleteHook_comments_map_id _ _).trans ((List.eraseP_sublist _).map _)

theorem commentFOAD_found_id_gone {p : CommentDoc → Bool} {s : Store}
    (hn : (s.comments.map CommentDoc.id).Nodup) {c : CommentDoc}
    (hf : s.comments.find? p = some c) :
    ∀ d ∈ (commentFindOneAndDelete p s).2.comments, d.id ≠ c.id := by
  intro d hd
  unfold commentFindOneAndDelete at hd
  rw [hf] at hd
  dsimp at hd
  rcases commentDeleteHook_comments_mem hd with ⟨c0, hc0, hid, _, _⟩
  rw [hid]
  exact key_ne_of_mem_eraseP (k := CommentDoc.id) hn hf hc0

theorem commentDeleteLoop_nil (s : Store) : commentDeleteLoop [] s = s := rfl

theorem commentDeleteLoop_cons (c : CommentDoc) (cs : List CommentDoc) (s : Store) :
    commentDeleteLoop (c :: cs) s =
      commentDeleteLoop cs ((commentFindOneAndDelete (fun d => d.id == c.id) s).2) := rfl

theorem commentDeleteLoop_users (cs : List CommentDoc) :
    ∀ s : Store, (commentDeleteLoop cs s).users = s.users := by
  induction cs with
  | nil => intro s; rfl
  | cons c cs ih => intro s; rw [commentDeleteLoop_cons, ih, commentFOAD_users]

theorem commentDeleteLoop_videos (cs : List CommentDoc) :
    ∀ s : Store, (commentDeleteLoop cs s).videos = s.videos := by
  induction cs with
  | nil => intro s; rfl
  | cons c cs ih => intro s; rw [commentDeleteLoop_cons, ih, commentFOAD_videos]

theorem commentDeleteLoop_tweets (cs : List CommentDoc) :
    ∀ s : Store, (commentDeleteLoop cs s).tweets = s.tweets := by
  induction cs with
  | nil => intro s; rfl
  | cons c cs ih => intro s; rw [commentDeleteLoop_cons, ih, commentFOAD_tweets]

theorem commentDeleteLoop_subs (cs : List CommentDoc) :
    ∀ s : Store, (commentDeleteLoop cs s).subs = s.subs := by
  induction cs with
  | nil => intro s; rfl
  | cons c cs ih => intro s; rw [commentDeleteLoop_cons, ih, commentFOAD_subs]

theorem commentDeleteLoop_playlists (cs : List CommentDoc) :
    ∀ s : Store, (commentDeleteLoop cs s).playlists = s.playlists := by
  induction cs with
  | nil => intro s; rfl
  | cons c cs ih => intro s; rw [commentDeleteLoop_cons, ih, commentFOAD_playlists]

theorem commentDeleteLoop_likes_mem (cs : List CommentDoc) :
    ∀ {s : Store} {l : LikeDoc}, l ∈ (commentDeleteLoop cs s).likes → l ∈ s.likes := by
  induction cs with
  | nil => intro s l hl; exact hl
  | cons c cs ih =>
      intro s l hl
      rw [commentDeleteLoop_cons] at hl
      exact commentFOAD_likes_mem (ih hl)

theorem commentDeleteLoop_comments_mem (cs : List CommentDoc) :
    ∀ {s : Store} {d : CommentDoc}, d ∈ (commentDeleteLoop cs s).comments →
      ∃ c0 ∈ s.comments, d.id = c0.id ∧ d.owner = c0.owner ∧ d.video = c0.video := by
  induction cs with
  | nil => intro s d hd; exact ⟨d, hd, rfl, rfl, rfl⟩
  | cons c cs ih =>
      intro s d hd
      rw [commentDeleteLoop_cons] at hd
      rcases ih hd with ⟨c1, hc1, hid1, how1, hv1⟩
      rcases commentFOAD_comments_mem hc1 with ⟨c0, hc0, hid0, how0, hv0⟩
      exact ⟨c0, hc0, hid1.trans hid0, how1.trans how0, hv1.trans hv0⟩

theorem commentDeleteLoop_comments_map_id (cs : List CommentDoc) :
    ∀ s : Store, List.Sublist ((commentDeleteLoop cs s).comments.map CommentDoc.id)
      (s.comments.map CommentDoc.id) := by
  induction cs with
  | nil => intro s; exact List.Sublist.refl _
  | cons c cs ih =>
      intro s
      rw [commentDeleteLoop_cons]
      exact (ih _).trans (commentFOAD_comments_map_id _ _)

theorem commentDeleteLoop_kills (uid : Nat) (cs : List CommentDoc) :
    ∀ s : Store, (s.comments.map CommentDoc.id).Nodup →
      (∀ c ∈ s.comments, c.owner = uid → c.id ∈ cs.map CommentDoc.id) →
      ∀ d ∈ (commentDeleteLoop cs s).comments, d.owner ≠ uid := by
  induction cs with
  | nil =>
      intro s _ hinv d hd hod
      exact absurd (hinv d hd hod) (by simp)
  | cons c cs ih =>
      intro s hn hinv d hd
      rw [commentDeleteLoop_cons] at hd
      refine ih _ ?_ ?_ d hd
      · exact hn.sublist (commentFOAD_comments_map_id _ _)
      · intro c1 hc1 how
        rcases commentFOAD_comments_mem hc1 with ⟨c0, hc0, hid0, how0, _⟩
        have hmem : c0.id ∈ (c :: cs).map CommentDoc.id := hinv c0 hc0 (how0 ▸ how)
        have hne : c1.id ≠ c.id := by
          cases hfind : s.comments.find? (fun d => d.id == c.id) with
          | none =>
              rw [List.find?_eq_none] at hfind
              intro hc
              exact hfind c0 hc0 (by rw [← hid0]; exact beq_iff_eq.mpr hc)
          | some cf =>
              have hcf : cf.id = c.id := by simpa using List.find?_some hfind
              intro hc
              exact commentFOAD_found_id_gone hn hfind c1 hc1 (hc.trans hcf.symm)
        rw [List.map_cons, List.mem_cons] at hmem
        rcases hmem with hmem | hmem
        · exact absurd (hid0 ▸ hmem) hne
        · exact hid0 ▸ hmem

/-! ### Component effects of the video cascade -/

theorem videoDeleteHook_videos (v : VideoDoc) (s : Store) :
    (videoDeleteHook v s).videos = s.videos := by
  simp [videoDeleteHook, commentDeleteLoop_videos]

theorem videoDeleteHook_tweets (v : VideoDoc) (s : Store) :
    (videoDeleteHook v s).tweets = s.tweets := by
  simp [videoDeleteHook, commentDeleteLoop_tweets]

theorem videoDeleteHook_subs (v : VideoDoc) (s : Store) :
    (videoDeleteHook v s).subs = s.subs := by
  simp [videoDeleteHook, commentDeleteLoop_subs]

theorem videoDeleteHook_playlists (v : VideoDoc) (s : Store) :
    (videoDeleteHook v s).playlists = s.playlists := by
  simp [videoDeleteHook, commentDeleteLoop_playlists]

theorem videoDeleteHook_users (v : VideoDoc) (s : Store) :
    (videoDeleteHook v s).users = updateFirst (fun u => u.id == v.owner)
      (fun u => { u with watchHistory := u.watchHistory.filter (fun w => !(w == v.id)) })
      s.users := by
  simp [videoDeleteHook, commentDeleteLoop_users]

theorem videoDeleteHook_users_map_id (v : VideoDoc) (s : Store) :
    (videoDeleteHook v s).users.map UserDoc.id = s.users.map UserDoc.id := by
  rw [videoDeleteHook_users]
  exact map_updateFirst UserDoc.id
    (f := fun u => { u with watchHistory := u.watchHistory.filter (fun w => !(w == v.id)) })
    (p := fun u => u.id == v.owner) (fun a => rfl) s.users

theorem videoDeleteHook_likes_mem {v : VideoDoc} {s : Store} {l : LikeDoc}
    (hl : l ∈ (videoDeleteHook v s).likes) : l ∈ s.likes := by
  simp only [videoDeleteHook] at hl
  exact commentDeleteLoop_likes_mem _ (List.mem_of_mem_filter hl)

theorem videoDeleteHook_comments_mem {v : VideoDoc} {s : Store} {d : CommentDoc}
    (hd : d ∈ (videoDeleteHook v s).comments) :
    ∃ c0 ∈ s.comments, d.id = c0.id ∧ d.owner = c0.owner ∧ d.video = c0.video := by
  simp only [videoDeleteHook] at hd
  exact commentDeleteLoop_comments_mem _ hd

theorem videoDeleteHook_comments_map_id (v : VideoDoc) (s : Store) :
    List.Sublist ((videoDeleteHook v s).comments.map CommentDoc.id)
      (s.comments.map CommentDoc.id) := by
  simp only [videoDeleteHook]
  exact commentDeleteLoop_comments_map_id _ s

theorem videoFOAD_videos (p : VideoDoc → Bool) (s : Store) :
    ((videoFindOneAndDelete p s).2).videos = s.videos.eraseP p := by
  unfold videoFindOneAndDelete
  cases hf : s.videos.find? p with
  | none =>
      rw [List.find?_eq_none] at hf
      exact (List.eraseP_of_forall_not hf).symm
  | some v => rw [videoDeleteHook_videos]

theorem videoFOAD_tweets (p : VideoDoc → Bool) (s : Store) :
    ((videoFindOneAndDelete p s).2).tweets = s.tweets := by
  unfold videoFindOneAndDelete
  split
  · rfl
  · rw [videoDeleteHook_tweets]

theorem videoFOAD_subs (p : VideoDoc → Bool) (s : Store) :
    ((videoFindOneAndDelete p s).2).subs = s.subs := by
  unfold videoFindOneAndDelete
  split
  · rfl
  · rw [videoDeleteHook_subs]

theorem videoFOAD_playlists (p : VideoDoc → Bool) (s : Store) :
    ((videoFindOneAndDelete p s).2).playlists = s.playlists := by
  unfold videoFindOneAndDelete
  split
  · rfl
  · rw [videoDeleteHook_playlists]

theorem videoFOAD_users_map_id (p : VideoDoc → Bool) (s : Store) :
    ((videoFindOneAndDelete p s).2).users.map UserDoc.id = s.users.map UserDoc.id := by
  unfold videoFindOneAndDelete
  split
  · rfl
  · rw [videoDeleteHook_users_map_id]

theorem videoFOAD_likes_mem {p : VideoDoc → Bool} {s : Store} {l : LikeDoc}
    (hl : l ∈ (videoFindOneAndDelete p s).2.likes) : l ∈ s.likes := by
  unfold videoFindOneAndDelete at hl
  split at hl
  · exact hl
  · dsimp only at hl
    have h2 := videoDeleteHook_likes_mem hl
    exact h2

theorem videoFOAD_comments_mem {p : VideoDoc → Bool} {s : Store} {d : CommentDoc}
    (hd : d ∈ (videoFindOneAndDelete p s).2.comments) :
    ∃ c0 ∈ s.comments, d.id = c0.id ∧ d.owner = c0.owner ∧ d.video = c0.video := by
  unfold videoFindOneAndDelete at hd
  split at hd
  · exact ⟨d, hd, rfl, rfl, rfl⟩
  · dsimp only at hd
    have h2 := videoDeleteHook_comments_mem hd
    exact h2

theorem videoFOAD_comments_map_id (p : VideoDoc → Bool) (s : Store) :
    List.Sublist ((videoFindOneAndDelete p s).2.comments.map CommentDoc.id)
      (s.comments.map CommentDoc.id) := by
  unfold videoFindOneAndDelete
  split
  · exact List.Sublist.refl _
  · exact videoDeleteHook_comments_map_id _ _

theorem videoFOAD_found_id_gone {p : VideoDoc → Bool} {s : Store}
    (hn : (s.videos.map VideoDoc.id).Nodup) {v : VideoDoc}
    (hf : s.videos.find? p = some v) :
    ∀ d ∈ (videoFindOneAndDelete p s).2.videos, d.id ≠ v.id := by
  intro d hd
  rw [videoFOAD_videos] at hd
  exact key_ne_of_mem_eraseP (k := VideoDoc.id) hn hf hd

theorem videoDeleteLoop_nil (s : Store) : videoDeleteLoop [] s = s := rfl

theorem videoDeleteLoop_cons (v : VideoDoc) (vs : List VideoDoc) (s : Store) :
    videoDeleteLoop (v :: vs) s =
      videoDeleteLoop vs ((videoFindOneAndDelete (fun d => d.id == v.id) s).2) := rfl

theorem videoDeleteLoop_tweets (vs : List VideoDoc) :
    ∀ s : Store, (videoDeleteLoop vs s).tweets = s.tweets := by
  induction vs with
  | nil => intro s; rfl
  | cons v vs ih => intro s; rw [videoDeleteLoop_cons, ih, videoFOAD_tweets]

theorem videoDeleteLoop_subs (vs : List VideoDoc) :
    ∀ s : Store, (videoDeleteLoop vs s).subs = s.subs := by
  induction vs with
  | nil => intro s; rfl
  | cons v vs ih => intro s; rw [videoDeleteLoop_cons, ih, videoFOAD_subs]

theorem videoDeleteLoop_playlists (vs : List VideoDoc) :
    ∀ s : Store, (videoDeleteLoop vs s).playlists = s.playlists := by
  induction vs with
  | nil => intro s; rfl
  | cons v vs ih => intro s; rw [videoDeleteLoop_cons, ih, videoFOAD_playlists]

theorem videoDeleteLoop_users_map_id (vs : List VideoDoc) :
    ∀ s : Store, (videoDeleteLoop vs s).users.map UserDoc.id = s.users.map UserDoc.id := by
  induction vs with
  | nil => intro s; rfl
  | cons v vs ih => intro s; rw [videoDeleteLoop_cons, ih, videoFOAD_users_map_id]

theorem videoDeleteLoop_videos_mem (vs : List VideoDoc) :
    ∀ {s : Store} {d : VideoDoc}, d ∈ (videoDeleteLoop vs s).videos → d ∈ s.videos := by
  induction vs with
  | nil => intro s d hd; exact hd
  | cons v vs ih =>
      intro s d hd
      rw [videoDeleteLoop_cons] at hd
      have := ih hd
      rw [videoFOAD_videos] at this
      exact List.mem_of_mem_eraseP this

theorem videoDeleteLoop_videos_map_id (vs : List VideoDoc) :
    ∀ s : Store, List.Sublist ((videoDeleteLoop vs s).videos.map VideoDoc.id)
      (s.videos.map VideoDoc.id) := by
  induction vs with
  | nil => intro s; exact List.Sublist.refl _
  | cons v vs ih =>
      intro s
      rw [videoDeleteLoop_cons]
      refine (ih _).trans ?_
      rw [videoFOAD_videos]
      exact (List.eraseP_sublist _).map _

theorem videoDeleteLoop_likes_mem (vs : List VideoDoc) :
    ∀ {s : Store} {l : LikeDoc}, l ∈ (videoDeleteLoop vs s).likes → l ∈ s.likes := by
  induction vs with
  | nil => intro s l hl; exact hl
  | cons v vs ih =>
      intro s l hl
      rw [videoDeleteLoop_cons] at hl
      exact videoFOAD_likes_mem (ih hl)

theorem videoDeleteLoop_comments_mem (vs : List VideoDoc) :
    ∀ {s : Store} {d : CommentDoc}, d ∈ (videoDeleteLoop vs s).comments →
      ∃ c0 ∈ s.comments, d.id = c0.id ∧ d.owner = c0.owner ∧ d.video = c0.video := by
  induction vs with
  | nil => intro s d hd; exact ⟨d, hd, rfl, rfl, rfl⟩
  | cons v vs ih =>
      intro s d hd
      rw [videoDeleteLoop_cons] at hd
      rcases ih hd with ⟨c1, hc1, hid1, how1, hv1⟩
      rcases videoFOAD_comments_mem hc1 with ⟨c0, hc0, hid0, how0, hv0⟩
      exact ⟨c0, hc0, hid1.trans hid0, how1.trans how0, hv1.trans hv0⟩

theorem videoDeleteLoop_comments_map_id (vs : List VideoDoc) :
    ∀ s : Store, List.Sublist ((videoDeleteLoop vs s).comments.map CommentDoc.id)
      (s.comments.map CommentDoc.id) := by
  induction vs with
  | nil => intro s; exact List.Sublist.refl _
  | cons v vs ih =>
      intro s
      rw [videoDeleteLoop_cons]
      exact (ih _).trans (videoFOAD_comments_map_id _ _)

theorem videoDeleteLoop_kills (uid : Nat) (vs : List VideoDoc) :
    ∀ s : Store, (s.videos.map VideoDoc.id).Nodup →
      (∀ v ∈ s.videos, v.owner = uid → v.id ∈ vs.map VideoDoc.id) →
      ∀ d ∈ (videoDeleteLoop vs s).videos, d.owner ≠ uid := by
  induction vs with
  | nil =>
      intro s _ hinv d hd hod
      exact absurd (hinv d hd hod) (by simp)
  | cons v vs ih =>
      intro s hn hinv d hd
      rw [videoDeleteLoop_cons] at hd
      refine ih _ ?_ ?_ d hd
      · rw [videoFOAD_videos]
        exact hn.sublist ((List.eraseP_sublist _).map _)
      · intro v1 hv1 how
        have hv1s : v1 ∈ s.videos := by
          rw [videoFOAD_videos] at hv1
          exact List.mem_of_mem_eraseP hv1
        have hmem : v1.id ∈ (v :: vs).map VideoDoc.id := hinv v1 hv1s how
        have hne : v1.id ≠ v.id := by
          cases hfind : s.videos.find? (fun d => d.id == v.id) with
          | none =>
              rw [List.find?_eq_none] at hfind
              intro hc
              exact hfind v1 hv1s (beq_iff_eq.mpr hc)
          | some vf =>
              have hvf : vf.id = v.id := by simpa using List.find?_some hfind
              intro hc
              exact videoFOAD_found_id_gone hn hfind v1 hv1 (hc.trans hvf.symm)
        rw [List.map_cons, List.mem_cons] at hmem
        rcases hmem with hmem | hmem
        · exact absurd hmem hne
        · exact hmem

/-! ### Component effects of the tweet cascade -/

theorem tweetFOAD_tweets (p : TweetDoc → Bool) (s : Store) :
    ((tweetFindOneAndDelete p s).2).tweets = s.tweets.eraseP p := by
  unfold tweetFindOneAndDelete
  cases hf : s.tweets.find? p with
  | none =>
      rw [List.find?_eq_none] at hf
      exact (List.eraseP_of_forall_not hf).symm
  | some t => rfl

theorem tweetFOAD_users (p : TweetDoc → Bool) (s : Store) :
    ((tweetFindOneAndDelete p s).2).users = s.users := by
  unfold tweetFindOneAndDelete
  split <;> rfl

theorem tweetFOAD_videos (p : TweetDoc → Bool) (s : Store) :
    ((tweetFindOneAndDelete p s).2).videos = s.videos := by
  unfold tweetFindOneAndDelete
  split <;> rfl

theorem tweetFOAD_comments (p : TweetDoc → Bool) (s : Store) :
    ((tweetFindOneAndDelete p s).2).comments = s.comments := by
  unfold tweetFindOneAndDelete
  split <;> rfl

theorem tweetFOAD_subs (p : TweetDoc → Bool) (s : Store) :
    ((tweetFindOneAndDelete p s).2).subs = s.subs := by
  unfold tweetFindOneAndDelete
  split <;> rfl

theorem tweetFOAD_playlists (p : TweetDoc → Bool) (s : Store) :
    ((tweetFindOneAndDelete p s).2).playlists = s.playlists := by
  unfold tweetFindOneAndDelete
  split <;> rfl

theorem tweetFOAD_likes_mem {p : TweetDoc → Bool} {s : Store} {l : LikeDoc}
    (hl : l ∈ (tweetFindOneAndDelete p s).2.likes) : l ∈ s.likes := by
  unfold tweetFindOneAndDelete at hl
  split at hl
  · exact hl
  · dsimp only [tweetDeleteHook] at hl
    exact List.mem_of_mem_filter hl

theorem tweetFOAD_found_id_gone {p : TweetDoc → Bool} {s : Store}
    (hn : (s.tweets.map TweetDoc.id).Nodup) {t : TweetDoc}
    (hf : s.tweets.find? p = some t) :
    ∀ d ∈ (tweetFindOneAndDelete p s).2.tweets, d.id ≠ t.id := by
  intro d hd
  rw [tweetFOAD_tweets] at hd
  exact key_ne_of_mem_eraseP (k := TweetDoc.id) hn hf hd

theorem tweetDeleteLoop_cons (t : TweetDoc) (ts : List TweetDoc) (s : Store) :
    tweetDeleteLoop (t :: ts) s =
      tweetDeleteLoop ts ((tweetFindOneAndDelete (fun d => d.id == t.id) s).2) := rfl

theorem tweetDeleteLoop_users (ts : List TweetDoc) :
    ∀ s : Store, (tweetDeleteLoop ts s).users = s.users := by
  induction ts with
  | nil => intro s; rfl
  | cons t ts ih => intro s; rw [tweetDeleteLoop_cons, ih, tweetFOAD_users]

theorem tweetDeleteLoop_videos (ts : List TweetDoc) :
    ∀ s : Store, (tweetDeleteLoop ts s).videos = s.videos := by
  induction ts with
  | nil => intro s; rfl
  | cons t ts ih => intro s; rw [tweetDeleteLoop_cons, ih, tweetFOAD_videos]

theorem tweetDeleteLoop_comments (ts : List TweetDoc) :
    ∀ s : Store, (tweetDeleteLoop ts s).comments = s.comments := by
  induction ts with
  | nil => intro s; rfl
  | cons t ts ih => intro s; rw [tweetDeleteLoop_cons, ih, tweetFOAD_comments]

theorem tweetDeleteLoop_subs (ts : List TweetDoc) :
    ∀ s : Store, (tweetDeleteLoop ts s).subs = s.subs := by
  induction ts with
  | nil => intro s; rfl
  | cons t ts ih => intro s; rw [tweetDeleteLoop_cons, ih, tweetFOAD_subs]

theorem tweetDeleteLoop_playlists (ts : List TweetDoc) :
    ∀ s : Store, (tweetDeleteLoop ts s).playlists = s.playlists := by
  induction ts with
  | nil => intro s; rfl
  | cons t ts ih => intro s; rw [tweetDeleteLoop_cons, ih, tweetFOAD_playlists]

theorem tweetDeleteLoop_likes_mem (ts : List TweetDoc) :
    ∀ {s : Store} {l : LikeDoc}, l ∈ (tweetDeleteLoop ts s).likes → l ∈ s.likes := by
  induction ts with
  | nil => intro s l hl; exact hl
  | cons t ts ih =>
      intro s l hl
      rw [tweetDeleteLoop_cons] at hl
      exact tweetFOAD_likes_mem (ih hl)

theorem tweetDeleteLoop_kills (uid : Nat) (ts : List TweetDoc) :
    ∀ s : Store, (s.tweets.map TweetDoc.id).Nodup →
      (∀ t ∈ s.tweets, t.owner = uid → t.id ∈ ts.map TweetDoc.id) →
      ∀ d ∈ (tweetDeleteLoop ts s).tweets, d.owner ≠ uid := by
  induction ts with
  | nil =>
      intro s _ hinv d hd hod
      exact absurd (hinv d hd hod) (by simp)
  | cons t ts ih =>
      intro s hn hinv d hd
      rw [tweetDeleteLoop_cons] at hd
      refine ih _ ?_ ?_ d hd
      · rw [tweetFOAD_tweets]
        exact hn.sublist ((List.eraseP_sublist _).map _)
      · intro t1 ht1 how
        have ht1s : t1 ∈ s.tweets := by
          rw [tweetFOAD_tweets] at ht1
          exact List.mem_of_mem_eraseP ht1
        have hmem : t1.id ∈ (t :: ts).map TweetDoc.id := hinv t1 ht1s how
        have hne : t1.id ≠ t.id := by
          cases hfind : s.tweets.find? (fun d => d.id == t.id) with
          | none =>
              rw [List.find?_eq_none] at hfind
              intro hc
              exact hfind t1 ht1s (beq_iff_eq.mpr hc)
          | some tf =>
              have htf : tf.id = t.id := by simpa using List.find?_some hfind
              intro hc
              exact tweetFOAD_found_id_gone hn hfind t1 ht1 (hc.trans htf.symm)
        rw [List.map_cons, List.mem_cons] at hmem
        rcases hmem with hmem | hmem
        · exact absurd hmem hne
        · exact hmem

/-! ### The user-deletion cascade postcondition -/

theorem userDeleteHook_spec (uid : Nat) (s : Store)
    (hv : (s.videos.map VideoDoc.id).Nodup)
    (hc : (s.comments.map CommentDoc.id).Nodup)
    (ht : (s.tweets.map TweetDoc.id).Nodup) :
    (∀ v ∈ (userDeleteHook uid s).videos, v.owner ≠ uid) ∧
    (∀ c ∈ (userDeleteHook uid s).comments, c.owner ≠ uid) ∧
    (∀ t ∈ (userDeleteHook uid s).tweets, t.owner ≠ uid) ∧
    (∀ l ∈ (userDeleteHook uid s).likes, l.likedBy ≠ uid) ∧
    (∀ x ∈ (userDeleteHook uid s).subs, x.subscriber ≠ uid ∧ x.channel ≠ uid) := by
  have s1eq : userCascadeVideos uid s =
      videoDeleteLoop (s.videos.filter (fun v => v.owner == uid)) s := rfl
  set s1 := userCascadeVideos uid s with hs1
  set s2 := userCascadeLikes uid s1 with hs2
  set s3 := userCascadeComments uid s2 with hs3
  set s4 := userCascadeTweets uid s3 with hs4
  have hres : userDeleteHook uid s = userCascadeSubs uid s4 := rfl
  -- step 1: no video owned by uid survives
  have A1 : ∀ v ∈ s1.videos, v.owner ≠ uid := by
    rw [s1eq]
    refine videoDeleteLoop_kills uid _ s hv ?_
    intro v hvm how
    exact List.mem_map_of_mem VideoDoc.id (List.mem_filter.mpr ⟨hvm, beq_iff_eq.mpr how⟩)
  -- step 2 effects
  have hs2videos : s2.videos = s1.videos := rfl
  have hs2comments : s2.comments = s1.comments := rfl
  have hs2tweets : s2.tweets = s1.tweets := rfl
  have A2 : ∀ l ∈ s2.likes, l.likedBy ≠ uid := by
    intro l hl
    have := List.of_mem_filter hl
    simpa using this
  -- step 3: no comment owned by uid survives
  have hcom2 : (s2.comments.map CommentDoc.id).Nodup := by
    rw [hs2comments, hs1]
    exact hc.sublist (videoDeleteLoop_comments_map_id _ s)
  have A3 : ∀ c ∈ s3.comments, c.owner ≠ uid := by
    rw [hs3]
    refine commentDeleteLoop_kills uid _ s2 hcom2 ?_
    intro c hcm how
    exact List.mem_map_of_mem CommentDoc.id (List.mem_filter.mpr ⟨hcm, beq_iff_eq.mpr how⟩)
  have hs3videos : s3.videos = s2.videos := by
    rw [hs3]; exact commentDeleteLoop_videos _ s2
  have hs3tweets : s3.tweets = s2.tweets := by
    rw [hs3]; exact commentDeleteLoop_tweets _ s2
  have A2' : ∀ l ∈ s3.likes, l.likedBy ≠ uid := by
    intro l hl
    rw [hs3] at hl
    exact A2 l (commentDeleteLoop_likes_mem _ hl)
  -- step 4: no tweet owned by uid survives
  have htw3 : (s3.tweets.map TweetDoc.id).Nodup := by
    rw [hs3tweets, hs2tweets, s1eq, videoDeleteLoop_tweets]
    exact ht
  have A4 : ∀ t ∈ s4.tweets, t.owner ≠ uid := by
    rw [hs4]
    refine tweetDeleteLoop_kills uid _ s3 htw3 ?_
    intro t htm how
    exact List.mem_map_of_mem TweetDoc.id (List.mem_filter.mpr ⟨htm, beq_iff_eq.mpr how⟩)
  have hs4videos : s4.videos = s3.videos := by
    rw [hs4]; exact tweetDeleteLoop_videos _ s3
  have hs4comments : s4.comments = s3.comments := by
    rw [hs4]; exact tweetDeleteLoop_comments _ s3
  have A2'' : ∀ l ∈ s4.likes, l.likedBy ≠ uid := by
    intro l hl
    rw [hs4] at hl
    exact A2' l (tweetDeleteLoop_likes_mem _ hl)
  -- step 5 and assembly
  have hfv : (userCascadeSubs uid s4).videos = s4.videos := rfl
  have hfc : (userCascadeSubs uid s4).comments = s4.comments := rfl
  have hft : (userCascadeSubs uid s4).tweets = s4.tweets := rfl
  have hfl : (userCascadeSubs uid s4).likes = s4.likes := rfl
  refine ⟨?_, ?_, ?_, ?_, ?_⟩
  · intro v hvm
    rw [hres, hfv, hs4videos, hs3videos, hs2videos] at hvm
    exact A1 v hvm
  · intro c hcm
    rw [hres, hfc, hs4comments] at hcm
    exact A3 c hcm
  · intro t htm
    rw [hres, hft] at htm
    exact A4 t htm
  · intro l hl
    rw [hres, hfl] at hl
    exact A2'' l hl
  · intro x hx
    rw [hres] at hx
    have := List.of_mem_filter hx
    constructor
    · intro hcon
      simp [hcon] at this
    · intro hcon
      simp [hcon] at this

/-! ### Further support lemmas for the claim theorems -/

theorem commentDeleteHook_replies_gone (c : CommentDoc) (s : Store) :
    ∀ d ∈ (commentDeleteHook c s).comments, d.id ∉ c.replies := by
  intro d hd
  unfold commentDeleteHook at hd
  by_cases h : c.replies.length > 0
  · cases c.parentComment <;> simp [h] at hd <;> exact hd.2
  · have : c.replies = [] := List.length_eq_zero.mp (Nat.eq_zero_of_not_pos h)
    rw [this]
    exact List.not_mem_nil _

theorem commentFOAD_likes_found {p : CommentDoc → Bool} {s : Store} {c : CommentDoc}
    (hf : (commentFindOneAndDelete p s).1 = some c) :
    (commentFindOneAndDelete p s).2.likes =
      s.likes.filter (fun l => !(l.comment == some c.id)) := by
  unfold commentFindOneAndDelete at hf ⊢
  cases hfind : s.comments.find? p with
  | none => rw [hfind] at hf; exact absurd hf (by simp)
  | some c0 =>
      rw [hfind] at hf
      dsimp only at hf ⊢
      injection hf with hf
      subst hf
      rw [commentDeleteHook_likes]

theorem commentFOAD_find?_of_found {p : CommentDoc → Bool} {s : Store} {c : CommentDoc}
    (hf : (commentFindOneAndDelete p s).1 = some c) : s.comments.find? p = some c := by
  unfold commentFindOneAndDelete at hf
  cases hfind : s.comments.find? p with
  | none => rw [hfind] at hf; exact absurd hf (by simp)
  | some c0 => rw [hfind] at hf; dsimp only at hf; injection hf with hf; rw [hf]

theorem commentFOAD_comments_found {p : CommentDoc → Bool} {s : Store} {c : CommentDoc}
    (hf : (commentFindOneAndDelete p s).1 = some c) :
    (commentFindOneAndDelete p s).2.comments =
      (commentDeleteHook c { s with comments := s.comments.eraseP p }).comments := by
  have hfind := commentFOAD_find?_of_found hf
  unfold commentFindOneAndDelete
  rw [hfind]

theorem videoFOAD_find?_of_found {p : VideoDoc → Bool} {s : Store} {v : VideoDoc}
    (hf : (videoFindOneAndDelete p s).1 = some v) : s.videos.find? p = some v := by
  unfold videoFindOneAndDelete at hf
  cases hfind : s.videos.find? p with
  | none => rw [hfind] at hf; exact absurd hf (by simp)
  | some v0 => rw [hfind] at hf; dsimp only at hf; injection hf with hf; rw [hf]

theorem videoFOAD_users_found {p : VideoDoc → Bool} {s : Store} {v : VideoDoc}
    (hf : (videoFindOneAndDelete p s).1 = some v) :
    (videoFindOneAndDelete p s).2.users = updateFirst (fun u => u.id == v.owner)
      (fun u => { u with watchHistory := u.watchHistory.filter (fun w => !(w == v.id)) })
      s.users := by
  have hfind := videoFOAD_find?_of_found hf
  unfold videoFindOneAndDelete
  rw [hfind]
  dsimp only
  rw [videoDeleteHook_users]

theorem userDeleteHook_users_map_id (uid : Nat) (s : Store) :
    (userDeleteHook uid s).users.map UserDoc.id = s.users.map UserDoc.id := by
  unfold userDeleteHook userCascadeSubs userCascadeTweets userCascadeComments
    userCascadeLikes userCascadeVideos
  rw [tweetDeleteLoop_users, commentDeleteLoop_users]
  exact videoDeleteLoop_users_map_id _ s

theorem userDeleteHook_videos_mem {uid : Nat} {s : Store} {v : VideoDoc}
    (hv : v ∈ (userDeleteHook uid s).videos) : v ∈ s.videos := by
  unfold userDeleteHook userCascadeSubs at hv
  dsimp only at hv
  rw [userCascadeTweets, tweetDeleteLoop_videos] at hv
  rw [userCascadeComments, commentDeleteLoop_videos] at hv
  exact videoDeleteLoop_videos_mem _ hv

/-! ### Concrete sample documents for counterexamples and witnesses -/

/-- A minimal user with the given id and watch history. -/
def sampleUser (i : Nat) (wh : List Nat) : UserDoc := ⟨i, "", "", "", "", "", wh, "", ""⟩

/-- A minimal published video with the given id and owner. -/
def sampleVideo (i own : Nat) : VideoDoc := ⟨i, own, "", "", 0, 0, true, "", [], "", "", "", ""⟩

/-- C1 counterexample store: users 1 and 2 both have video 10 in their
watch history; user 1 owns the video. -/
def c1Store : Store :=
  ⟨[sampleUser 1 [10], sampleUser 2 [10]], [sampleVideo 10 1], [], [], [], [], []⟩

/-- C1, counterexample: after the owner deletes video 10 (deletion
succeeds and the video is gone), user 2 still has 10 in `watchHistory` —
the cascade pulls the id from the owner's history only, not from every
user's, refuting the claim as stated. -/
theorem c1_counterexample :
    (deleteVideo c1Store 1 10).1 = 200 ∧
    (deleteVideo c1Store 1 10).2.videos = [] ∧
    ∃ u ∈ (deleteVideo c1Store 1 10).2.users, u.id = 2 ∧ 10 ∈ u.watchHistory := by
  decide

/-- C1 (amended): after a video deletion cascade completes, the deleted
video's id has been removed from the owner's `watchHistory` (the one
user `findOneAndUpdate` targets); every user document is otherwise
unchanged — either untouched, or equal to its old value with only
`watchHistory` filtered — and every non-owner user document is exactly
its old value, video id included. -/
theorem c1_video_delete_pulls_owner_watchHistory_only
    (s : Store) (p : VideoDoc → Bool) (v : VideoDoc)
    (hWF : s.WF) (hfound : (videoFindOneAndDelete p s).1 = some v) :
    (∀ u ∈ (videoFindOneAndDelete p s).2.users, u.id = v.owner → v.id ∉ u.watchHistory) ∧
    (∀ u ∈ (videoFindOneAndDelete p s).2.users,
        u ∈ s.users ∨ ∃ u0 ∈ s.users, u0.id = v.owner ∧
          u = { u0 with watchHistory := u0.watchHistory.filter (fun w => !(w == v.id)) }) ∧
    (∀ u ∈ (videoFindOneAndDelete p s).2.users, u.id ≠ v.owner → u ∈ s.users) := by
  have husers := videoFOAD_users_found hfound
  obtain ⟨hnu, _⟩ := hWF
  refine ⟨?_, ?_, ?_⟩
  · intro u hu hid
    rw [husers] at hu
    rcases mem_updateFirst_key (k := UserDoc.id) (i := v.owner)
        (fun a => rfl) hnu hu hid with ⟨a, ha, hai, rfl⟩
    intro hmem
    have := List.of_mem_filter hmem
    simp at this
  · intro u hu
    rw [husers] at hu
    rcases mem_updateFirst hu with h | ⟨a, ha, hpa, rfl⟩
    · exact Or.inl h
    · exact Or.inr ⟨a, ha, beq_iff_eq.mp hpa, rfl⟩
  · intro u hu hne
    rw [husers] at hu
    rcases mem_updateFirst hu with h | ⟨a, ha, hpa, rfl⟩
    · exact h
    · exact absurd (beq_iff_eq.mp hpa) hne

/-- C1 witness: the amended theorem applied to the counterexample store:
user 2, who is not the owner, appears in the post-deletion store exactly
as it was before the deletion. -/
theorem c1_witness : sampleUser 2 [10] ∈ c1Store.users :=
  (c1_video_delete_pulls_owner_watchHistory_only c1Store
    (fun v => v.id == 10 && v.owner == 1) (sampleVideo 10 1) (by decide) (by decide)).2.2
    (sampleUser 2 [10]) (by decide) (by decide)

/-- C2 counterexample store: comment 1 (owner 5) is a parent with reply 2
(owner 6); like 100 is on the parent, like 101 on the reply. -/
def c2Store : Store :=
  ⟨[], [], [⟨1, "", 10, 5, none, [2]⟩, ⟨2, "", 10, 6, some 1, []⟩], [],
   [⟨100, none, some 1, none, 7⟩, ⟨101, none, some 2, none, 7⟩], [], []⟩

/-- C2, counterexample: deleting the parent comment succeeds and removes
the reply (no comment with id 2 remains), yet like 101 — whose `comment`
field references the deleted reply 2 — survives, because the replies are
removed by a bare `deleteMany` that runs no per-reply like cascade. -/
theorem c2_counterexample :
    (deleteComment c2Store 5 1).1 = 200 ∧
    (∀ d ∈ (deleteComment c2Store 5 1).2.comments, d.id ≠ 2) ∧
    ∃ l ∈ (deleteComment c2Store 5 1).2.likes, l.comment = some 2 := by
  decide

/-- C2 (amended): deleting a parent comment removes the parent and every
comment listed in its `replies`, and removes exactly the likes whose
`comment` field references the parent itself; likes referencing the
deleted replies are left in the store. -/
theorem c2_parent_comment_delete_effects
    (s : Store) (p : CommentDoc → Bool) (c : CommentDoc)
    (hWF : s.WF) (hfound : (commentFindOneAndDelete p s).1 = some c) :
    (commentFindOneAndDelete p s).2.likes =
      s.likes.filter (fun l => !(l.comment == some c.id)) ∧
    (∀ d ∈ (commentFindOneAndDelete p s).2.comments, d.id ≠ c.id ∧ d.id ∉ c.replies) := by
  obtain ⟨_, _, hnc, _⟩ := hWF
  refine ⟨commentFOAD_likes_found hfound, ?_⟩
  intro d hd
  constructor
  · exact commentFOAD_found_id_gone hnc (commentFOAD_find?_of_found hfound) d hd
  · rw [commentFOAD_comments_found hfound] at hd
    exact commentDeleteHook_replies_gone c _ d hd

/-- C2 witness: the amended theorem applied to the counterexample store:
deleting parent comment 1 leaves exactly the likes not referencing
comment 1. -/
theorem c2_witness :
    (commentFindOneAndDelete (fun d => d.id == 1 && d.owner == 5) c2Store).2.likes =
      c2Store.likes.filter
        (fun l => !(l.comment == some (⟨1, "", 10, 5, none, [2]⟩ : CommentDoc).id)) :=
  (c2_parent_comment_delete_effects c2Store (fun d => d.id == 1 && d.owner == 5)
    ⟨1, "", 10, 5, none, [2]⟩ (by decide) (by decide)).1

/-- C3 witness store: user 1 owns a video, a comment, a tweet, a like and
subscriptions in both directions. -/
def c3Store : Store :=
  ⟨[sampleUser 1 [], sampleUser 2 []],
   [sampleVideo 10 1],
   [⟨20, "", 10, 2, none, []⟩, ⟨21, "", 10, 1, none, []⟩],
   [⟨30, "", 1⟩],
   [⟨40, some 10, none, none, 2⟩, ⟨41, none, some 20, none, 1⟩],
   [⟨50, 1, 2⟩, ⟨51, 2, 1⟩],
   []⟩

/-- C3: a successful user deletion runs exactly the five cascade steps
in source order — videos (per-video cascade), likes by the user, comments
(per-comment cascade), tweets (per-tweet cascade), subscriptions — on the
store from which the user record was already removed; afterwards no
video, comment or tweet owned by the user, no like by the user, and no
subscription with the user as subscriber or channel remains. -/
theorem c3_user_delete_cascade (s : Store) (uid : Nat) (hWF : s.WF)
    (hfound : (s.users.find? (fun u => u.id == uid)).isSome) :
    ((userFindOneAndDelete (fun u => u.id == uid) s).2 =
      userCascadeSubs uid (userCascadeTweets uid (userCascadeComments uid
        (userCascadeLikes uid (userCascadeVideos uid
          { s with users := s.users.eraseP (fun u => u.id == uid) }))))) ∧
    (∀ v ∈ (userFindOneAndDelete (fun u => u.id == uid) s).2.videos, v.owner ≠ uid) ∧
    (∀ c ∈ (userFindOneAndDelete (fun u => u.id == uid) s).2.comments, c.owner ≠ uid) ∧
    (∀ t ∈ (userFindOneAndDelete (fun u => u.id == uid) s).2.tweets, t.owner ≠ uid) ∧
    (∀ l ∈ (userFindOneAndDelete (fun u => u.id == uid) s).2.likes, l.likedBy ≠ uid) ∧
    (∀ x ∈ (userFindOneAndDelete (fun u => u.id == uid) s).2.subs,
        x.subscriber ≠ uid ∧ x.channel ≠ uid) := by
  rcases Option.isSome_iff_exists.mp hfound with ⟨u, hu⟩
  have huid : u.id = uid := by simpa using List.find?_some hu
  have hstep : (userFindOneAndDelete (fun x => x.id == uid) s).2 =
      userDeleteHook uid { s with users := s.users.eraseP (fun x => x.id == uid) } := by
    unfold userFindOneAndDelete
    rw [hu]
    dsimp only
    rw [huid]
  obtain ⟨_, hv, hc, ht, _, _, _⟩ := hWF
  have hspec := userDeleteHook_spec uid
    { s with users := s.users.eraseP (fun x => x.id == uid) } hv hc ht
  rw [hstep]
  exact ⟨rfl, hspec.1, hspec.2.1, hspec.2.2.1, hspec.2.2.2.1, hspec.2.2.2.2⟩

/-- C3 witness: applied to the concrete store, deleting user 1 produces
exactly the five-step cascade composition on the store minus the user
record. -/
theorem c3_witness :
    (userFindOneAndDelete (fun u => u.id == 1) c3Store).2 =
      userCascadeSubs 1 (userCascadeTweets 1 (userCascadeComments 1
        (userCascadeLikes 1 (userCascadeVideos 1
          { c3Store with users := c3Store.users.eraseP (fun u => u.id == 1) })))) :=
  (c3_user_delete_cascade c3Store 1 (by decide) (by decide)).1

/-- C4 witness store: a single user with distinct avatar and cover
assets. -/
def c4Store : Store :=
  ⟨[⟨1, "", "", "", "http://h/av1.png", "http://h/cv1.png", [], "", ""⟩], [], [], [], [], [], []⟩

/-- C4: for a delete-account request that finds the user, the operation
first removes the User record from the document store and only then
issues the two Object Store deletions (the event trace is exactly
db-delete followed by the avatar and cover deletions, so both asset
deletions come after the record removal); if either asset deletion
returns an error the caller gets a 500 server error, and in every
outcome the User record stays deleted (no rollback). -/
theorem c4_account_delete_order_and_errors (s : Store) (uid : Nat) (u : UserDoc)
    (cloud : String → CloudRes) (hWF : s.WF)
    (hu : s.users.find? (fun x => x.id == uid) = some u) :
    (deleteUserAccount s uid cloud).events =
      [CascadeEv.dbUserDelete uid, CascadeEv.objDelete (publicIdFromUrl u.avatar),
       CascadeEv.objDelete (publicIdFromUrl u.coverImage)] ∧
    (∀ w ∈ (deleteUserAccount s uid cloud).store.users, w.id ≠ uid) ∧
    (((cloud (publicIdFromUrl u.avatar)).error ∨ (cloud (publicIdFromUrl u.coverImage)).error) →
      (deleteUserAccount s uid cloud).status = 500) ∧
    (¬((cloud (publicIdFromUrl u.avatar)).error ∨ (cloud (publicIdFromUrl u.coverImage)).error) →
      (deleteUserAccount s uid cloud).status = 200 ∧
      (deleteUserAccount s uid cloud).message = "Account deleted") := by
  obtain ⟨hnu, _⟩ := hWF
  have huid : u.id = uid := by simpa using List.find?_some hu
  have hfoad : userFindOneAndDelete (fun x => x.id == uid) s =
      (some u, userDeleteHook u.id { s with users := s.users.eraseP (fun x => x.id == uid) }) := by
    unfold userFindOneAndDelete
    rw [hu]
  have hstore : ∀ w ∈ (userDeleteHook u.id
      { s with users := s.users.eraseP (fun x => x.id == uid) }).users, w.id ≠ uid := by
    intro w hw
    have hmap : w.id ∈ (userDeleteHook u.id
        { s with users := s.users.eraseP (fun x => x.id == uid) }).users.map UserDoc.id :=
      List.mem_map_of_mem UserDoc.id hw
    rw [userDeleteHook_users_map_id] at hmap
    dsimp only at hmap
    rcases List.mem_map.mp hmap with ⟨w0, hw0, hww0⟩
    rw [← hww0, ← huid]
    exact key_ne_of_mem_eraseP (k := UserDoc.id) hnu hu hw0
  unfold deleteUserAccount
  rw [hfoad]
  dsimp only
  by_cases herr : ((cloud (publicIdFromUrl u.avatar)).error ||
      (cloud (publicIdFromUrl u.coverImage)).error)
  · rw [if_pos herr]
    refine ⟨rfl, hstore, fun _ => rfl, fun hn => absurd ?_ hn⟩
    simpa using herr
  · rw [if_neg herr]
    refine ⟨rfl, hstore, fun hy => absurd ?_ herr, fun _ => ⟨rfl, rfl⟩⟩
    simpa using hy

/-- C4 witness: with an Object Store oracle whose deletions all error,
the concrete account deletion reports the 500 server error. -/
theorem c4_witness :
    (deleteUserAccount c4Store 1 (fun _ => ⟨true⟩)).status = 500 :=
  (c4_account_delete_order_and_errors c4Store 1
    ⟨1, "", "", "", "http://h/av1.png", "http://h/cv1.png", [], "", ""⟩
    (fun _ => ⟨true⟩) (by decide) (by decide)).2.2.1 (Or.inl rfl)

/-- C10 witness store: user 1 exists and has placed a like. -/
def c10Store : Store :=
  ⟨[sampleUser 1 []], [], [], [], [⟨70, some 99, none, none, 1⟩], [], []⟩

/-- C10: when a database step of the user-deletion cascade throws, the
hook's try/catch swallows the error, so for every interruption point the
delete-account operation still reports 200 "Account deleted" (given the
asset deletions do not error); in particular, with the cascade
interrupted before its first step, the deleted user's like survives in
the store while the caller is told the deletion succeeded. -/
theorem c10_success_reported_despite_cascade_failure :
    (∀ (s : Store) (uid k : Nat) (cloud : String → CloudRes),
        (s.users.find? (fun x => x.id == uid)).isSome →
        (∀ pid, (cloud pid).error = false) →
        (deleteUserAccountDbFailure s uid k cloud).status = 200 ∧
        (deleteUserAccountDbFailure s uid k cloud).message = "Account deleted") ∧
    ((deleteUserAccountDbFailure c10Store 1 0 (fun _ => ⟨false⟩)).status = 200 ∧
      ∃ l ∈ (deleteUserAccountDbFailure c10Store 1 0 (fun _ => ⟨false⟩)).store.likes,
        l.likedBy = 1) := by
  constructor
  · intro s uid k cloud hfound hok
    rcases Option.isSome_iff_exists.mp hfound with ⟨u, hu⟩
    have hfoad : userFindOneAndDeleteInterrupted (fun x => x.id == uid) k s =
        (some u, userDeleteHookUpTo u.id k
          { s with users := s.users.eraseP (fun x => x.id == uid) }) := by
      unfold userFindOneAndDeleteInterrupted
      rw [hu]
    unfold deleteUserAccountDbFailure
    rw [hfoad]
    dsimp only
    rw [hok, hok]
    exact ⟨rfl, rfl⟩
  · exact ⟨by decide, by decide⟩

/-- C10 witness: the universal part applied at the concrete store with
interruption before any cascade step. -/
theorem c10_witness :
    (deleteUserAccountDbFailure c10Store 1 0 (fun _ => ⟨false⟩)).status = 200 ∧
    (deleteUserAccountDbFailure c10Store 1 0 (fun _ => ⟨false⟩)).message = "Account deleted" :=
  c10_success_reported_despite_cascade_failure.1 c10Store 1 0 (fun _ => ⟨false⟩)
    (by decide) (fun _ => rfl)

/-- C5 store: empty document store. -/
def c5Store : Store := ⟨[], [], [], [], [], [], []⟩

/-- C5: a subscription toggle in which the acting subscriber equals the
target channel is NOT rejected: the guard compares an existing ObjectId
instance against a freshly constructed one with JavaScript `===`
(reference equality), which is false even for equal id values, so the
request falls through and creates a Subscription document with
subscriber = channel, returning success — the code contradicts its own
"you can not subscribe yourself" rejection path. -/
theorem c5_self_subscription_not_rejected :
    (toggleSubscription c5Store 7 7 1).1 = 200 ∧
    (toggleSubscription c5Store 7 7 1).2.subs =
      [(⟨1, 7, 7⟩ : SubscriptionDoc)] := by
  decide

/-- C6 store: empty document store (no like by the actor exists). -/
def c6Store : Store := ⟨[], [], [], [], [], [], []⟩

/-- C6: for every target kind and every (actor, target) with no existing
Like by that actor on that target, toggling once succeeds and appends
exactly one Like document for the pair (the pair-count becomes 1), and
toggling a second time returns the store — the Like collection included —
to exactly its original state. -/
theorem c6_like_toggle_involution
    (k : TargetKind) (s : Store) (actorId targetId newId newId2 : Nat)
    (hnone : ∀ l ∈ s.likes, ¬ likePred k actorId targetId l) :
    (toggleLike k s actorId targetId newId).1 = 200 ∧
    (toggleLike k s actorId targetId newId).2.likes =
      s.likes ++ [mkLike k newId actorId targetId] ∧
    ((toggleLike k s actorId targetId newId).2.likes.countP
      (likePred k actorId targetId) = 1) ∧
    (toggleLike k (toggleLike k s actorId targetId newId).2 actorId targetId newId2).2 = s := by
  cases k with
  | video =>
      simp only [toggleLike, likePred, mkLike] at hnone ⊢
      have hfind : s.likes.find? (likeVideoPred actorId targetId) = none :=
        List.find?_eq_none.2 hnone
      have happ : toggleVideoLike s actorId targetId newId =
          (200, { s with likes := s.likes ++ [⟨newId, some targetId, none, none, actorId⟩] }) := by
        unfold toggleVideoLike
        rw [hfind]
      rw [happ]
      dsimp only
      refine ⟨rfl, rfl, ?_, ?_⟩
      · rw [List.countP_append, List.countP_eq_zero.mpr hnone]
        simp [likeVideoPred, List.countP_cons]
      · unfold toggleVideoLike
        have hfind2 : (s.likes ++ [(⟨newId, some targetId, none, none, actorId⟩ : LikeDoc)]).find?
            (likeVideoPred actorId targetId) =
              some ⟨newId, some targetId, none, none, actorId⟩ := by
          rw [find?_append_of_none hfind]
          apply List.find?_cons_of_pos
          simp [likeVideoPred]
        rw [hfind2]
        dsimp only
        have herase : (s.likes ++ [(⟨newId, some targetId, none, none, actorId⟩ : LikeDoc)]).eraseP
            (likeVideoPred actorId targetId) = s.likes := by
          rw [List.eraseP_append_right _ hnone]
          simp [List.eraseP_cons, likeVideoPred]
        rw [herase]
  | comment =>
      simp only [toggleLike, likePred, mkLike] at hnone ⊢
      have hfind : s.likes.find? (likeCommentPred actorId targetId) = none :=
        List.find?_eq_none.2 hnone
      have happ : toggleCommentLike s actorId targetId newId =
          (200, { s with likes := s.likes ++ [⟨newId, none, some targetId, none, actorId⟩] }) := by
        unfold toggleCommentLike
        rw [hfind]
      rw [happ]
      dsimp only
      refine ⟨rfl, rfl, ?_, ?_⟩
      · rw [List.countP_append, List.countP_eq_zero.mpr hnone]
        simp [likeCommentPred, List.countP_cons]
      · unfold toggleCommentLike
        have hfind2 : (s.likes ++ [(⟨newId, none, some targetId, none, actorId⟩ : LikeDoc)]).find?
            (likeCommentPred actorId targetId) =
              some ⟨newId, none, some targetId, none, actorId⟩ := by
          rw [find?_append_of_none hfind]
          apply List.find?_cons_of_pos
          simp [likeCommentPred]
        rw [hfind2]
        dsimp only
        have herase : (s.likes ++ [(⟨newId, none, some targetId, none, actorId⟩ : LikeDoc)]).eraseP
            (likeCommentPred actorId targetId) = s.likes := by
          rw [List.eraseP_append_right _ hnone]
          simp [List.eraseP_cons, likeCommentPred]
        rw [herase]
  | tweet =>
      simp only [toggleLike, likePred, mkLike] at hnone ⊢
      have hfind : s.likes.find? (likeTweetPred actorId targetId) = none :=
        List.find?_eq_none.2 hnone
      have happ : toggleTweetLike s actorId targetId newId =
          (200, { s with likes := s.likes ++ [⟨newId, none, none, some targetId, actorId⟩] }) := by
        unfold toggleTweetLike
        rw [hfind]
      rw [happ]
      dsimp only
      refine ⟨rfl, rfl, ?_, ?_⟩
      · rw [List.countP_append, List.countP_eq_zero.mpr hnone]
        simp [likeTweetPred, List.countP_cons]
      · unfold toggleTweetLike
        have hfind2 : (s.likes ++ [(⟨newId, none, none, some targetId, actorId⟩ : LikeDoc)]).find?
            (likeTweetPred actorId targetId) =
              some ⟨newId, none, none, some targetId, actorId⟩ := by
          rw [find?_append_of_none hfind]
          apply List.find?_cons_of_pos
          simp [likeTweetPred]
        rw [hfind2]
        dsimp only
        have herase : (s.likes ++ [(⟨newId, none, none, some targetId, actorId⟩ : LikeDoc)]).eraseP
            (likeTweetPred actorId targetId) = s.likes := by
          rw [List.eraseP_append_right _ hnone]
          simp [List.eraseP_cons, likeTweetPred]
        rw [herase]

/-- C6 witness: toggling a video like once on the empty store appends
exactly the created Like document. -/
theorem c6_witness :
    (toggleLike TargetKind.video c6Store 3 9 100).2.likes =
      c6Store.likes ++ [mkLike TargetKind.video 100 3 9] :=
  (c6_like_toggle_involution TargetKind.video c6Store 3 9 100 101 (by decide)).2.1

/-- C7 store: a playlist owned by user 2, a video owned by user 1 and a
comment owned by user 5; the acting user 9 owns none of them. -/
def c7Store : Store :=
  ⟨[], [sampleVideo 10 1], [⟨20, "", 10, 5, none, []⟩], [], [], [],
   [⟨60, "", "", 2, [10]⟩]⟩

/-- C7, counterexample: a non-owner's playlist deletion reports status
500 — a server-error status, not the ownership/not-found client error
the claim requires — although the store is indeed left unchanged. -/
theorem c7_counterexample :
    (deletePlaylist c7Store 9 60).1 = 500 ∧
    ¬(400 ≤ (deletePlaylist c7Store 9 60).1 ∧ (deletePlaylist c7Store 9 60).1 < 500) ∧
    (deletePlaylist c7Store 9 60).2 = c7Store := by
  decide

/-- C7 (amended): when the acting user owns no entity with the target
id, all four delete operations leave the entire store unchanged and no
cascade step runs; comment, reply and video deletion report the 400
client error, while playlist deletion reports 500. -/
theorem c7_nonowner_delete_is_noop (s : Store) (actorId targetId : Nat)
    (hc : ∀ c ∈ s.comments, c.id = targetId → c.owner ≠ actorId)
    (hv : ∀ v ∈ s.videos, v.id = targetId → v.owner ≠ actorId)
    (hpl : ∀ pl ∈ s.playlists, pl.id = targetId → pl.owner ≠ actorId) :
    deleteComment s actorId targetId = (400, s) ∧
    deleteReply s actorId targetId = (400, s) ∧
    deleteVideo s actorId targetId = (400, s) ∧
    deletePlaylist s actorId targetId = (500, s) := by
  have hcn : s.comments.find? (fun c => c.id == targetId && c.owner == actorId) = none := by
    rw [List.find?_eq_none]
    intro c hcm hb
    rw [Bool.and_eq_true, beq_iff_eq, beq_iff_eq] at hb
    exact hc c hcm hb.1 hb.2
  have hvn : s.videos.find? (fun v => v.id == targetId && v.owner == actorId) = none := by
    rw [List.find?_eq_none]
    intro v hvm hb
    rw [Bool.and_eq_true, beq_iff_eq, beq_iff_eq] at hb
    exact hv v hvm hb.1 hb.2
  have hpn : s.playlists.find? (fun pl => pl.id == targetId && pl.owner == actorId) = none := by
    rw [List.find?_eq_none]
    intro pl hplm hb
    rw [Bool.and_eq_true, beq_iff_eq, beq_iff_eq] at hb
    exact hpl pl hplm hb.1 hb.2
  have hcf : commentFindOneAndDelete
      (fun c => c.id == targetId && c.owner == actorId) s = (none, s) := by
    unfold commentFindOneAndDelete
    rw [hcn]
  have hvf : videoFindOneAndDelete
      (fun v => v.id == targetId && v.owner == actorId) s = (none, s) := by
    unfold videoFindOneAndDelete
    rw [hvn]
  refine ⟨?_, ?_, ?_, ?_⟩
  · unfold deleteComment
    rw [hcf]
  · unfold deleteReply
    rw [hcf]
  · unfold deleteVideo
    rw [hvf]
  · unfold deletePlaylist
    rw [hpn]

/-- C7 witness: the amended theorem at the concrete store: the non-owner
playlist deletion is a 500 no-op. -/
theorem c7_witness :
    deletePlaylist c7Store 9 60 = (500, c7Store) :=
  (c7_nonowner_delete_is_noop c7Store 9 60 (by decide) (by decide) (by decide)).2.2.2

/-- C8 store: comment 1 is top-level; comment 2 is a reply to 1. -/
def c8Store : Store :=
  ⟨[], [], [⟨1, "", 10, 5, none, [2]⟩, ⟨2, "", 10, 6, some 1, []⟩], [], [], [], []⟩

/-- C8, counterexample: adding a reply whose parent is comment 2 — which
is itself a reply (its `parentComment` is 1) — succeeds: the store then
contains comment 3 with `parentComment` 2, a reply whose parent is a
reply, so nesting depth 2 is reachable and the claimed invariant fails. -/
theorem c8_counterexample :
    (addReplyToComment c8Store 7 2 3 "").1 = 201 ∧
    (∃ d ∈ (addReplyToComment c8Store 7 2 3 "").2.comments,
        d.id = 3 ∧ d.parentComment = some 2) ∧
    (∃ par ∈ (addReplyToComment c8Store 7 2 3 "").2.comments,
        par.id = 2 ∧ par.parentComment = some 1) := by
  decide

/-- C8 (amended): the add-reply operation only requires the parent to
exist: it creates the reply on the parent's own video with
`parentComment` set to the parent's id (and registers it in the parent's
`replies`), with no check that the parent is top-level — so a reply's
parent may reference any existing comment on that video, including
another reply. -/
theorem c8_addReply_requires_only_existing_parent
    (s : Store) (actorId pid newId : Nat) (content : String) (parent : CommentDoc)
    (hfound : s.comments.find? (fun c => c.id == pid) = some parent) :
    (addReplyToComment s actorId pid newId content).1 = 201 ∧
    (⟨newId, content, parent.video, actorId, some pid, []⟩ : CommentDoc) ∈
      (addReplyToComment s actorId pid newId content).2.comments := by
  unfold addReplyToComment
  rw [hfound]
  dsimp only
  refine ⟨rfl, ?_⟩
  have hpa : (fun c => c.id == pid) parent = true :=
    List.find?_some (p := fun (c : CommentDoc) => c.id == pid) hfound
  have hmem : ∃ a ∈ s.comments, (fun c => c.id == pid) a :=
    ⟨parent, List.mem_of_find?_eq_some hfound, hpa⟩
  rw [updateFirst_append_left hmem]
  exact List.mem_append_right _ (List.mem_cons_self _ _)

/-- C8 witness: the amended theorem applied at the counterexample store
with the reply (comment 2) as parent. -/
theorem c8_witness :
    (addReplyToComment c8Store 7 2 3 "").1 = 201 ∧
    (⟨3, "", 10, 7, some 2, []⟩ : CommentDoc) ∈
      (addReplyToComment c8Store 7 2 3 "").2.comments :=
  c8_addReply_requires_only_existing_parent c8Store 7 2 3 ""
    ⟨2, "", 10, 6, some 1, []⟩ (by decide)

/-! ### Views monotonicity (C9) -/

/-- Views comparison between two video collections: every video in `new`
either is freshly created (`views = 0`, the schema default) or descends
from a video in `old` with the same id and a view count that has not
decreased. -/
def viewsMonotone (old new : List VideoDoc) : Prop :=
  ∀ v ∈ new, v.views = 0 ∨ ∃ w ∈ old, w.id = v.id ∧ w.views ≤ v.views

theorem viewsMonotone_of_sub {old new : List VideoDoc} (h : ∀ v ∈ new, v ∈ old) :
    viewsMonotone old new :=
  fun v hv => Or.inr ⟨v, h v hv, rfl, le_refl _⟩

theorem viewsMonotone_of_eq {old new : List VideoDoc} (h : new = old) :
    viewsMonotone old new :=
  viewsMonotone_of_sub (fun v hv => by rw [h] at hv; exact hv)

theorem getVideoById_videos (s : Store) (videoId : Nat) (viewer : Option Nat) :
    (getVideoById s videoId viewer).2.videos = updateFirst (fun v => v.id == videoId)
      (fun v => { v with views := v.views + 1 }) s.videos := by
  unfold getVideoById
  cases viewer with
  | none => dsimp only; split <;> rfl
  | some uid => dsimp only; split <;> rfl

theorem deleteVideo_store (s : Store) (actorId videoId : Nat) :
    (deleteVideo s actorId videoId).2 =
      (videoFindOneAndDelete (fun v => v.id == videoId && v.owner == actorId) s).2 := by
  unfold deleteVideo
  cases h : videoFindOneAndDelete (fun v => v.id == videoId && v.owner == actorId) s with
  | mk o s1 => cases o <;> rfl

theorem deleteComment_store (s : Store) (actorId commentId : Nat) :
    (deleteComment s actorId commentId).2 =
      (commentFindOneAndDelete (fun c => c.id == commentId && c.owner == actorId) s).2 := by
  unfold deleteComment
  cases h : commentFindOneAndDelete (fun c => c.id == commentId && c.owner == actorId) s with
  | mk o s1 => cases o <;> rfl

theorem deleteReply_videos (s : Store) (actorId replyId : Nat) :
    (deleteReply s actorId replyId).2.videos = s.videos := by
  unfold deleteReply
  cases h : commentFindOneAndDelete (fun c => c.id == replyId && c.owner == actorId) s with
  | mk o s1 =>
      have h2 := congrArg (fun x : Option CommentDoc × Store => x.2.videos) h
      dsimp only at h2
      rw [commentFOAD_videos] at h2
      cases o with
      | none => exact h2.symm
      | some r =>
          dsimp only
          cases r.parentComment with
          | none => exact h2.symm
          | some pid =>
              dsimp only
              cases s1.comments.find? (fun c => c.id == pid) with
              | none => exact h2.symm
              | some parent => exact h2.symm

theorem addComment_videos (s : Store) (actorId videoId newId : Nat) (content : String) :
    (addComment s actorId videoId newId content).2.videos = s.videos := by
  unfold addComment
  split <;> rfl

theorem addReplyToComment_videos (s : Store) (actorId pid newId : Nat) (content : String) :
    (addReplyToComment s actorId pid newId content).2.videos = s.videos := by
  unfold addReplyToComment
  split <;> rfl

theorem toggleLike_videos (k : TargetKind) (s : Store) (actorId targetId newId : Nat) :
    (toggleLike k s actorId targetId newId).2.videos = s.videos := by
  cases k with
  | video =>
      show (toggleVideoLike s actorId targetId newId).2.videos = s.videos
      unfold toggleVideoLike
      split <;> rfl
  | comment =>
      show (toggleCommentLike s actorId targetId newId).2.videos = s.videos
      unfold toggleCommentLike
      split <;> rfl
  | tweet =>
      show (toggleTweetLike s actorId targetId newId).2.videos = s.videos
      unfold toggleTweetLike
      split <;> rfl

theorem toggleSubscription_videos (s : Store) (actorId channelId newId : Nat) :
    (toggleSubscription s actorId channelId newId).2.videos = s.videos := by
  unfold toggleSubscription
  split
  · rfl
  · split <;> rfl

theorem deletePlaylist_videos (s : Store) (actorId playlistId : Nat) :
    (deletePlaylist s actorId playlistId).2.videos = s.videos := by
  unfold deletePlaylist
  split <;> rfl

theorem userFOAD_videos_mem {p : UserDoc → Bool} {s : Store} {v : VideoDoc}
    (hv : v ∈ (userFindOneAndDelete p s).2.videos) : v ∈ s.videos := by
  unfold userFindOneAndDelete at hv
  split at hv
  · exact hv
  · dsimp only at hv
    have h2 := userDeleteHook_videos_mem hv
    exact h2

theorem deleteUserAccount_store (s : Store) (uid : Nat) (cloud : String → CloudRes) :
    (deleteUserAccount s uid cloud).store =
      (userFindOneAndDelete (fun u => u.id == uid) s).2 := by
  unfold deleteUserAccount
  cases h : userFindOneAndDelete (fun u => u.id == uid) s with
  | mk o s1 =>
      cases o with
      | none => rfl
      | some u =>
          dsimp only
          split <;> rfl

/-- C9: the `views` counter is monotonically non-decreasing under every
modelled operation — surviving videos never lose views, newly published
videos start at the schema default 0 — and a fetch-video-by-id request
increments the fetched video's counter by exactly 1 (the incremented
document is in the resulting store) regardless of the viewer, while all
other videos are untouched. -/
theorem c9_views_monotone_and_fetch_increment :
    (∀ (s : Store) (videoId : Nat) (viewer : Option Nat),
        viewsMonotone s.videos (getVideoById s videoId viewer).2.videos) ∧
    (∀ (s : Store) (videoId : Nat) (viewer : Option Nat) (v : VideoDoc),
        s.WF → v ∈ s.videos → v.id = videoId →
        ({ v with views := v.views + 1 } : VideoDoc) ∈
          (getVideoById s videoId viewer).2.videos) ∧
    (∀ (s : Store) (videoId : Nat) (viewer : Option Nat) (w : VideoDoc),
        w ∈ (getVideoById s videoId viewer).2.videos → w.id ≠ videoId → w ∈ s.videos) ∧
    (∀ (s : Store) (actorId newId : Nat) (title description : String) (duration : Nat)
        (isPublished : Bool) (categories : String) (tags : List String)
        (vfn vfu tfn tfu : String),
        viewsMonotone s.videos (publishAVideo s actorId newId title description duration
          isPublished categories tags vfn vfu tfn tfu).2.videos) ∧
    (∀ (s : Store) (actorId videoId : Nat) (title description categories : String)
        (tags : List String) (thumb : Option (String × String)),
        viewsMonotone s.videos
          (updateVideo s actorId videoId title description categories tags thumb).2.videos) ∧
    (∀ (s : Store) (actorId videoId : Nat),
        viewsMonotone s.videos (togglePublishStatus s actorId videoId).2.videos) ∧
    (∀ (s : Store) (actorId videoId : Nat),
        viewsMonotone s.videos (deleteVideo s actorId videoId).2.videos) ∧
    (∀ (s : Store) (actorId commentId : Nat),
        viewsMonotone s.videos (deleteComment s actorId commentId).2.videos) ∧
    (∀ (s : Store) (actorId replyId : Nat),
        viewsMonotone s.videos (deleteReply s actorId replyId).2.videos) ∧
    (∀ (s : Store) (actorId videoId newId : Nat) (content : String),
        viewsMonotone s.videos (addComment s actorId videoId newId content).2.videos) ∧
    (∀ (s : Store) (actorId pid newId : Nat) (content : String),
        viewsMonotone s.videos (addReplyToComment s actorId pid newId content).2.videos) ∧
    (∀ (k : TargetKind) (s : Store) (actorId targetId newId : Nat),
        viewsMonotone s.videos (toggleLike k s actorId targetId newId).2.videos) ∧
    (∀ (s : Store) (actorId channelId newId : Nat),
        viewsMonotone s.videos (toggleSubscription s actorId channelId newId).2.videos) ∧
    (∀ (s : Store) (actorId playlistId : Nat),
        viewsMonotone s.videos (deletePlaylist s actorId playlistId).2.videos) ∧
    (∀ (s : Store) (uid : Nat) (cloud : String → CloudRes),
        viewsMonotone s.videos (deleteUserAccount s uid cloud).store.videos) := by
  refine ⟨?_, ?_, ?_, ?_, ?_, ?_, ?_, ?_, ?_, ?_, ?_, ?_, ?_, ?_, ?_⟩
  · intro s videoId viewer
    rw [getVideoById_videos]
    intro b hb
    rcases mem_updateFirst hb with h | ⟨a, ha, hpa, rfl⟩
    · exact Or.inr ⟨b, h, rfl, le_refl _⟩
    · exact Or.inr ⟨a, ha, rfl, Nat.le_succ _⟩
  · intro s videoId viewer v hWF hv hid
    rw [getVideoById_videos]
    obtain ⟨_, hnv, _⟩ := hWF
    exact f_mem_updateFirst_key (k := VideoDoc.id) (i := videoId) (fun a => rfl) hnv hv hid
  · intro s videoId viewer w hw hne
    rw [getVideoById_videos] at hw
    rcases mem_updateFirst hw with h | ⟨a, ha, hpa, rfl⟩
    · exact h
    · exact absurd (beq_iff_eq.mp hpa) hne
  · intro s actorId newId title description duration isPublished categories tags vfn vfu tfn tfu
    unfold publishAVideo
    intro b hb
    rcases List.mem_append.mp hb with h | h
    · exact Or.inr ⟨b, h, rfl, le_refl _⟩
    · rcases List.mem_cons.mp h with rfl | h
      · exact Or.inl rfl
      · exact absurd h (List.not_mem_nil _)
  · intro s actorId videoId title description categories tags thumb
    unfold updateVideo
    cases hf : s.videos.find? (fun v => v.id == videoId && v.owner == actorId) with
    | none => exact viewsMonotone_of_eq rfl
    | some v0 =>
        dsimp only
        intro b hb
        rcases mem_updateFirst hb with h | ⟨a, ha, hpa, rfl⟩
        · exact Or.inr ⟨b, h, rfl, le_refl _⟩
        · cases thumb with
          | none => exact Or.inr ⟨a, ha, rfl, le_refl _⟩
          | some t =>
              cases t with
              | mk fn url => exact Or.inr ⟨a, ha, rfl, le_refl _⟩
  · intro s actorId videoId
    unfold togglePublishStatus
    cases hf : s.videos.find? (fun v => v.id == videoId && v.owner == actorId) with
    | none => exact viewsMonotone_of_eq rfl
    | some v0 =>
        dsimp only
        intro b hb
        rcases mem_updateFirst hb with h | ⟨a, ha, hpa, rfl⟩
        · exact Or.inr ⟨b, h, rfl, le_refl _⟩
        · exact Or.inr ⟨v0, List.mem_of_find?_eq_some hf, rfl, le_refl _⟩
  · intro s actorId videoId
    refine viewsMonotone_of_sub ?_
    intro v hv
    rw [deleteVideo_store, videoFOAD_videos] at hv
    exact List.mem_of_mem_eraseP hv
  · intro s actorId commentId
    refine viewsMonotone_of_eq ?_
    rw [deleteComment_store, commentFOAD_videos]
  · intro s actorId replyId
    exact viewsMonotone_of_eq (deleteReply_videos s actorId replyId)
  · intro s actorId videoId newId content
    exact viewsMonotone_of_eq (addComment_videos s actorId videoId newId content)
  · intro s actorId pid newId content
    exact viewsMonotone_of_eq (addReplyToComment_videos s actorId pid newId content)
  · intro k s actorId targetId newId
    exact viewsMonotone_of_eq (toggleLike_videos k s actorId targetId newId)
  · intro s actorId channelId newId
    exact viewsMonotone_of_eq (toggleSubscription_videos s actorId channelId newId)
  · intro s actorId playlistId
    exact viewsMonotone_of_eq (deletePlaylist_videos s actorId playlistId)
  · intro s uid cloud
    refine viewsMonotone_of_sub ?_
    intro v hv
    rw [deleteUserAccount_store] at hv
    exact userFOAD_videos_mem hv

/-- C9 witness store: a single video with id 10 and zero views. -/
def c9Store : Store := ⟨[], [sampleVideo 10 1], [], [], [], [], []⟩

/-- C9 witness: fetching video 10 once puts its document with views
incremented to 1 into the store. -/
theorem c9_witness :
    ({ sampleVideo 10 1 with views := (sampleVideo 10 1).views + 1 } : VideoDoc) ∈
      (getVideoById c9Store 10 none).2.videos :=
  c9_views_monotone_and_fetch_increment.2.1 c9Store 10 none (sampleVideo 10 1)
    (by decide) (by decide) (by decide)

end YoutubeBackend
